import Mathlib

/-!
Verification of the NEXUS-DASH WebSocket dashboard client
(`src/websocket_client.py`).

The development shallowly embeds the client's data model and operations:

* a JSON value model (`Json` / `JArr` / `JObj`) together with an executable
  serializer `dumpsJ` mirroring Python's `json.dumps` (default separators,
  `ensure_ascii=True` escaping) and an executable parser `loadsJ`;
* an executable base64 codec over byte lists mirroring `base64.b64encode`;
* the client state (`ClientState`) and its operations translated line by
  line from `WebSocketDashboardClient`: sequence-id allocation, the public
  publish methods, the send worker's batching cycle, `_send_raw_message`
  with its compression wrapper, reconnect backoff, config-update merging,
  heartbeat construction, and `stop`.

Byte-level compression (`gzip.compress` composed with UTF-8 encoding) is a
stdlib facility external to the repository; theorems that depend on it take
the compression/decompression pair as parameters together with the library's
round-trip law, and witnesses instantiate the pair with a concrete invertible
codec.
-/

namespace NexusDash

/-! ## JSON value model

Python's `json.dumps` / `json.loads` operate on dictionaries, lists,
strings, numbers, booleans and `None`.  The model uses a mutual inductive
(`Json` with spine types `JArr` for arrays and `JObj` for ordered
string-keyed objects); object member order models CPython dict insertion
order, which `json.dumps` preserves. -/

mutual
inductive Json where
  | null : Json
  | bool (b : Bool) : Json
  | num (n : Int) : Json
  | str (s : String) : Json
  | arr (xs : JArr) : Json
  | obj (ms : JObj) : Json

inductive JArr where
  | nil : JArr
  | cons (hd : Json) (tl : JArr) : JArr

inductive JObj where
  | nil : JObj
  | cons (key : String) (val : Json) (tl : JObj) : JObj
end

/-- Build a model array from a Lean list of values. -/
def JArr.ofList : List Json → JArr
  | [] => .nil
  | x :: xs => .cons x (JArr.ofList xs)

/-- Key lookup in an object's member list (first match wins, as in a
Python dict where keys are unique). -/
def JObj.lookup : JObj → String → Option Json
  | .nil, _ => none
  | .cons k v tl, key => if k = key then some v else JObj.lookup tl key

/-! ## Serializer (`json.dumps` with default options)

`json.dumps` is called by `_send_raw_message` with `default=str` and
otherwise default options: item separator `", "`, key separator `": "`,
`ensure_ascii=True` (every character outside `0x20..0x7e` is emitted as a
`\uXXXX` escape, astral characters as a surrogate pair), integers in
decimal. -/

/-- Decimal digit character for `d < 10`. -/
def digitChar (d : Nat) : Char := Char.ofNat (48 + d)

/-- Decimal digit characters of a positive natural, most significant first
(`natDigits 0 = []`). -/
def natDigits : Nat → List Char
  | 0 => []
  | n + 1 => natDigits ((n + 1) / 10) ++ [digitChar ((n + 1) % 10)]
decreasing_by exact Nat.div_lt_self (Nat.succ_pos n) (by norm_num)

/-- Decimal rendering of a natural number. -/
def natToString (n : Nat) : String :=
  if n = 0 then "0" else String.mk (natDigits n)

/-- Decimal rendering of an integer, as emitted by `json.dumps`. -/
def intToString (i : Int) : String :=
  if i < 0 then "-" ++ natToString i.natAbs else natToString i.toNat

/-- Lowercase hexadecimal digit character for `d < 16`. -/
def hexDigit (d : Nat) : Char :=
  if d < 10 then Char.ofNat (48 + d) else Char.ofNat (87 + d)

/-- Four lowercase hex digits of `n < 0x10000`, as in Python's `\uXXXX`. -/
def hex4 (n : Nat) : List Char :=
  [hexDigit (n / 4096 % 16), hexDigit (n / 256 % 16),
   hexDigit (n / 16 % 16), hexDigit (n % 16)]

/-- Escape one character the way `json.dumps` with `ensure_ascii=True`
does: `"` and `\` get a backslash escape, the control shorthands
`\b \t \n \f \r` are used where they exist, printable ASCII
(`0x20..0x7e`) passes through, and everything else becomes `\uXXXX`
(astral code points as a UTF-16 surrogate pair). -/
def escChar (c : Char) : List Char :=
  if c = '"' then ['\\', '"']
  else if c = '\\' then ['\\', '\\']
  else if c = '\x08' then ['\\', 'b']
  else if c = '\x09' then ['\\', 't']
  else if c = '\x0a' then ['\\', 'n']
  else if c = '\x0c' then ['\\', 'f']
  else if c = '\x0d' then ['\\', 'r']
  else if 32 ≤ c.toNat ∧ c.toNat ≤ 126 then [c]
  else if c.toNat < 65536 then '\\' :: 'u' :: hex4 c.toNat
  else
    let v := c.toNat - 65536
    ('\\' :: 'u' :: hex4 (55296 + v / 1024)) ++ ('\\' :: 'u' :: hex4 (56320 + v % 1024))

/-- Serialize a string literal including the surrounding quotes. -/
def quoteString (s : String) : String :=
  "\"" ++ String.mk (s.data.flatMap escChar) ++ "\""

mutual
/-- `json.dumps` on a JSON value (default separators). -/
def dumpsJ : Json → String
  | .null => "null"
  | .bool true => "true"
  | .bool false => "false"
  | .num n => intToString n
  | .str s => quoteString s
  | .arr .nil => "[]"
  | .arr (.cons hd tl) => "[" ++ dumpsJ hd ++ dumpsArr tl ++ "]"
  | .obj .nil => "\x7b\x7d"
  | .obj (.cons k v tl) =>
      "\x7b" ++ quoteString k ++ ": " ++ dumpsJ v ++ dumpsObj tl ++ "\x7d"

/-- Remaining array items, each preceded by the `", "` item separator. -/
def dumpsArr : JArr → String
  | .nil => ""
  | .cons hd tl => ", " ++ dumpsJ hd ++ dumpsArr tl

/-- Remaining object members, each preceded by the `", "` item separator. -/
def dumpsObj : JObj → String
  | .nil => ""
  | .cons k v tl => ", " ++ quoteString k ++ ": " ++ dumpsJ v ++ dumpsObj tl
end

/-! ## Base64 codec (`base64.b64encode` / RFC 4648 with padding)

`_send_raw_message` base64-encodes the gzip output before embedding it as
a JSON string.  The codec is modelled executably over byte lists. -/

/-- The base64 alphabet, indexed by sextet value. -/
def b64Alphabet : List Char :=
  "ABCDEFGHIJKLMNOPQRSTUVWXYZabcdefghijklmnopqrstuvwxyz0123456789+/".data

/-- Character for a sextet value `v < 64`. -/
def b64Char (v : Nat) : Char := b64Alphabet.getD v 'A'

/-- Sextet value of a base64 character, `none` for characters outside the
alphabet (in particular for the `=` padding character). -/
def b64Val (c : Char) : Option Nat :=
  let i := b64Alphabet.indexOf c
  if i < 64 then some i else none

/-- Base64 encoding of a byte list, processing three bytes at a time and
padding the final group with `=` as `base64.b64encode` does. -/
def b64encodeAux : List Nat → List Char
  | [] => []
  | [a] =>
      let n := a * 16
      [b64Char (n / 64), b64Char (n % 64), '=', '=']
  | [a, b] =>
      let n := (a * 256 + b) * 4
      [b64Char (n / 4096), b64Char (n / 64 % 64), b64Char (n % 64), '=']
  | a :: b :: c :: rest =>
      let n := a * 65536 + b * 256 + c
      b64Char (n / 262144) :: b64Char (n / 4096 % 64) ::
        b64Char (n / 64 % 64) :: b64Char (n % 64) :: b64encodeAux rest

/-- Base64 encoding as a string. -/
def b64encode (bs : List Nat) : String := String.mk (b64encodeAux bs)

/-- Base64 decoding of a character list: full groups of four alphabet
characters yield three bytes; a final group may carry one or two `=`
padding characters. -/
def b64decodeAux : List Char → Option (List Nat)
  | [] => some []
  | c1 :: c2 :: c3 :: c4 :: rest =>
      if c3 = '=' ∧ c4 = '=' ∧ rest = [] then
        match b64Val c1, b64Val c2 with
        | some v1, some v2 => some [(v1 * 64 + v2) / 16]
        | _, _ => none
      else if c4 = '=' ∧ rest = [] then
        match b64Val c1, b64Val c2, b64Val c3 with
        | some v1, some v2, some v3 =>
            let n := (v1 * 4096 + v2 * 64 + v3) / 4
            some [n / 256, n % 256]
        | _, _, _ => none
      else
        match b64Val c1, b64Val c2, b64Val c3, b64Val c4 with
        | some v1, some v2, some v3, some v4 =>
            let n := v1 * 262144 + v2 * 4096 + v3 * 64 + v4
            (b64decodeAux rest).map
              (fun bs => n / 65536 :: n / 256 % 256 :: n % 256 :: bs)
        | _, _, _, _ => none
  | _ => none

/-- Base64 decoding of a string. -/
def b64decode (s : String) : Option (List Nat) := b64decodeAux s.data

/-! ## Parser (`json.loads`)

Modelled from the spec: the dashboard-side decoder itself is not part of
this repository (the client's own read loop at
`src/websocket_client.py:228-244` only parses uncompressed inbound JSON);
section 4.1 of the spec requires a decoder for the wire format the client
emits.  The parser below accepts exactly the JSON grammar the serializer
uses: field-named objects, arrays, strings with backslash escapes
(including `\uXXXX` and UTF-16 surrogate pairs), decimal integers, and the
literals `null` / `true` / `false`, with insignificant whitespace after
item and key separators. -/

/-- Whitespace recognized between tokens. -/
def isWsChar (c : Char) : Bool :=
  c = ' ' ∨ c = '\x09' ∨ c = '\x0a' ∨ c = '\x0d'

/-- Drop leading whitespace. -/
def skipWs : List Char → List Char
  | [] => []
  | c :: cs => if isWsChar c then skipWs cs else c :: cs

/-- Accumulating decimal-digit scanner: consumes the longest digit prefix. -/
def parseNatAux : List Char → Nat → Nat × List Char
  | [], acc => (acc, [])
  | c :: cs, acc =>
      if 48 ≤ c.toNat ∧ c.toNat ≤ 57 then parseNatAux cs (acc * 10 + (c.toNat - 48))
      else (acc, c :: cs)

/-- Value of a hexadecimal digit character. -/
def hexVal (c : Char) : Option Nat :=
  if 48 ≤ c.toNat ∧ c.toNat ≤ 57 then some (c.toNat - 48)
  else if 97 ≤ c.toNat ∧ c.toNat ≤ 102 then some (c.toNat - 87)
  else if 65 ≤ c.toNat ∧ c.toNat ≤ 70 then some (c.toNat - 55)
  else none

/-- A scalar value as a character, `none` on surrogate range or overflow. -/
def mkChar? (v : Nat) : Option Char :=
  if v < 55296 ∨ (57344 ≤ v ∧ v < 1114112) then some (Char.ofNat v) else none

/-- Combined value of four hexadecimal digit characters. -/
def hex4val (h1 h2 h3 h4 : Char) : Option Nat :=
  (hexVal h1).bind (fun v1 => (hexVal h2).bind (fun v2 =>
    (hexVal h3).bind (fun v3 => (hexVal h4).map (fun v4 =>
      v1 * 4096 + v2 * 256 + v3 * 16 + v4))))

/-- The short backslash escapes of JSON. -/
def escTable (e : Char) : Option Char :=
  if e = '"' then some '"'
  else if e = '\\' then some '\\'
  else if e = '/' then some '/'
  else if e = 'b' then some '\x08'
  else if e = 't' then some '\x09'
  else if e = 'n' then some '\x0a'
  else if e = 'f' then some '\x0c'
  else if e = 'r' then some '\x0d'
  else none

/-- Decode a `\uXXXX` escape given its four hex digits and the input that
follows them; a high surrogate must be completed by a second escaped low
surrogate.  Returns the decoded character and the total number of input
characters the escape occupies after the backslash. -/
def parseU4 (h1 h2 h3 h4 : Char) (cs2 : List Char) : Option (Char × Nat) :=
  (hex4val h1 h2 h3 h4).bind (fun v =>
    if 55296 ≤ v ∧ v < 56320 then
      match cs2 with
      | b1 :: b2 :: k1 :: k2 :: k3 :: k4 :: _ =>
          if b1 = '\\' ∧ b2 = 'u' then
            (hex4val k1 k2 k3 k4).bind (fun w =>
              if 56320 ≤ w ∧ w < 57344 then
                (mkChar? (65536 + (v - 55296) * 1024 + (w - 56320))).map
                  (fun ch => (ch, 11))
              else none)
          else none
      | _ => none
    else (mkChar? v).map (fun ch => (ch, 5)))

/-- Decode one backslash escape from the input following the backslash:
the decoded character and the number of characters consumed. -/
def unescape : List Char → Option (Char × Nat)
  | [] => none
  | e :: cs =>
      if e = 'u' then
        match cs with
        | h1 :: h2 :: h3 :: h4 :: cs2 => parseU4 h1 h2 h3 h4 cs2
        | _ => none
      else
        match escTable e with
        | some ch => some (ch, 1)
        | none => none

/-- Parse a string body after the opening quote: returns the decoded
characters and the remainder after the closing quote. -/
def parseStringBody : List Char → Option (List Char × List Char)
  | [] => none
  | c :: cs =>
      if c = '"' then some ([], cs)
      else if c = '\\' then
        match unescape cs with
        | some p => (parseStringBody (cs.drop p.2)).map
            (fun q => (p.1 :: q.1, q.2))
        | none => none
      else (parseStringBody cs).map (fun p => (c :: p.1, p.2))
termination_by l => l.length
decreasing_by
  · simp only [List.length_cons, List.length_drop]; omega
  · simp only [List.length_cons]; omega

/-- Whether the input continues with a decimal digit. -/
def startsDigit : List Char → Bool
  | [] => false
  | d :: _ => 48 ≤ d.toNat ∧ d.toNat ≤ 57

mutual
/-- Parse one JSON value, dispatching on the first character.  The fuel
argument bounds recursion depth; `loadsJ` supplies enough for any input. -/
def parseValue : Nat → List Char → Option (Json × List Char)
  | 0, _ => none
  | _ + 1, [] => none
  | fuel + 1, c :: cs =>
      if c = 'n' then
        if cs.take 3 = ['u', 'l', 'l'] then some (.null, cs.drop 3) else none
      else if c = 't' then
        if cs.take 3 = ['r', 'u', 'e'] then some (.bool true, cs.drop 3)
        else none
      else if c = 'f' then
        if cs.take 4 = ['a', 'l', 's', 'e'] then some (.bool false, cs.drop 4)
        else none
      else if c = '"' then
        match parseStringBody cs with
        | some (l, r) => some (.str (String.mk l), r)
        | none => none
      else if c = '[' then
        if cs.head? = some ']' then some (.arr .nil, cs.tail)
        else
          match parseItems fuel cs with
          | some (l, r) => some (.arr l, r)
          | none => none
      else if c = '\x7b' then
        if cs.head? = some '\x7d' then some (.obj .nil, cs.tail)
        else
          match parseMembers fuel cs with
          | some (l, r) => some (.obj l, r)
          | none => none
      else if c = '-' then
        if startsDigit cs then
          let p := parseNatAux cs 0
          some (.num (-(p.1 : Int)), p.2)
        else none
      else if 48 ≤ c.toNat ∧ c.toNat ≤ 57 then
        let p := parseNatAux (c :: cs) 0
        some (.num (p.1 : Int), p.2)
      else none

/-- Parse the non-empty item list of an array, including the closing
bracket. -/
def parseItems : Nat → List Char → Option (JArr × List Char)
  | 0, _ => none
  | fuel + 1, cs =>
      match parseValue fuel cs with
      | none => none
      | some (v, r) =>
          match r with
          | [] => none
          | c2 :: r2 =>
              if c2 = ']' then some (.cons v .nil, r2)
              else if c2 = ',' then
                match parseItems fuel (skipWs r2) with
                | some (tl, r3) => some (.cons v tl, r3)
                | none => none
              else none

/-- Parse the non-empty member list of an object, including the closing
brace. -/
def parseMembers : Nat → List Char → Option (JObj × List Char)
  | 0, _ => none
  | _ + 1, [] => none
  | fuel + 1, c1 :: cs1 =>
      if c1 = '"' then
        match parseStringBody cs1 with
        | none => none
        | some (k, r1) =>
            match r1 with
            | [] => none
            | c2 :: r2 =>
                if c2 = ':' then
                  match parseValue fuel (skipWs r2) with
                  | none => none
                  | some (v, r3) =>
                      match r3 with
                      | [] => none
                      | c3 :: r4 =>
                          if c3 = '\x7d' then
                            some (.cons (String.mk k) v .nil, r4)
                          else if c3 = ',' then
                            match parseMembers fuel (skipWs r4) with
                            | some (tl, r5) =>
                                some (.cons (String.mk k) v tl, r5)
                            | none => none
                          else none
                else none
      else none
end

/-- `json.loads` on a complete document: parse one value and require the
input to be fully consumed. -/
def loadsJ (s : String) : Option Json :=
  match parseValue (s.length + 1) s.data with
  | some (j, []) => some j
  | _ => none

/-! Fuel sufficient to parse the serialization of a given value: one unit
per `parseValue` / `parseItems` / `parseMembers` call. -/

mutual
/-- Recursion depth needed by `parseValue` on the serialization of `j`. -/
def jfuel : Json → Nat
  | .null => 1
  | .bool _ => 1
  | .num _ => 1
  | .str _ => 1
  | .arr a => 1 + afuel a
  | .obj o => 1 + ofuel o

/-- Recursion depth needed by `parseItems` on serialized items. -/
def afuel : JArr → Nat
  | .nil => 0
  | .cons hd tl => 1 + jfuel hd + afuel tl

/-- Recursion depth needed by `parseMembers` on serialized members. -/
def ofuel : JObj → Nat
  | .nil => 0
  | .cons _ v tl => 1 + jfuel v + ofuel tl
end

/-! ## Client data model (`src/websocket_client.py`)

`DashboardMessage` is the envelope dataclass; `ClientState` collects the
mutable attributes of `WebSocketDashboardClient`.  Time-valued fields are
modelled with integers (ISO timestamps as opaque strings); the payload
`data: Dict[str, Any]` is an arbitrary `Json` value. -/

/-- The `DashboardMessage` dataclass (field order as declared). -/
structure DashboardMessage where
  message_type : String
  timestamp : String
  data : Json
  system_id : String
  sequence_id : Nat

/-- `asdict` on a `DashboardMessage`: a five-member JSON object in
declaration order. -/
def msgToJson (m : DashboardMessage) : Json :=
  .obj (.cons "message_type" (.str m.message_type)
       (.cons "timestamp" (.str m.timestamp)
       (.cons "data" m.data
       (.cons "system_id" (.str m.system_id)
       (.cons "sequence_id" (.num m.sequence_id) .nil)))))

/-- The `self.stats` dictionary.  Its keys at construction are exactly
`messages_sent`, `messages_failed`, `bytes_sent`, `connection_uptime`,
`last_heartbeat`, `reconnections`; `start_time`, which `send_heartbeat`
reads with `self.stats.get('start_time', time.time())`, is never one of
them — it is carried here as an `Option` that records whether any code
path has stored the key, and no operation ever does. -/
structure Stats where
  messages_sent : Nat
  messages_failed : Nat
  bytes_sent : Nat
  connection_uptime : Nat
  last_heartbeat : Option String
  reconnections : Nat
  start_time : Option Int

/-- The statistics dictionary as `__init__` builds it. -/
def initStats : Stats :=
  { messages_sent := 0, messages_failed := 0, bytes_sent := 0,
    connection_uptime := 0, last_heartbeat := none, reconnections := 0,
    start_time := none }

/-- Mutable state of a `WebSocketDashboardClient`: the configuration
dictionary, the attributes `__init__` derives from it, the connection
handle and flags, the sequence counter, the outbound queue (front of the
list dequeues first) and the task handles created by `start`. -/
structure ClientState where
  config : List (String × Json)
  max_reconnect_attempts : Nat
  reconnect_delay : Nat
  max_reconnect_delay : Nat
  system_id : String
  compress_data : Bool
  batch_size : Nat
  send_interval : Nat
  websocket : Bool
  is_connected : Bool
  is_running : Bool
  reconnect_attempts : Nat
  sequence_id : Nat
  message_queue : List DashboardMessage
  send_task : Bool
  heartbeat_task : Bool
  stats : Stats

/-- `_get_next_sequence_id`: increment the counter and return it. -/
def getNextSequenceId (s : ClientState) : Nat × ClientState :=
  (s.sequence_id + 1, { s with sequence_id := s.sequence_id + 1 })

/-! ### Raw sends and the compression wrapper (`_send_raw_message`)

The byte-level channel `gz : String → List Nat` stands for
`gzip.compress(text.encode('utf-8'))`; it is a parameter because both
functions are Python stdlib, not repository code.  `transportOk` stands
for whether `await self.websocket.send(...)` raises. -/

/-- The final wire text produced inside `_send_raw_message`: the envelope
serialized with `json.dumps(asdict(message), default=str)` and, when
compression is on, the base64 of the compressed bytes wrapped in the
`compressed`/`data` marker object. -/
def encodeEnvelope (gz : String → List Nat) (compress : Bool)
    (m : DashboardMessage) : String :=
  let message_json := dumpsJ (msgToJson m)
  if compress then
    dumpsJ (.obj (.cons "compressed" (.bool true)
                 (.cons "data" (.str (b64encode (gz message_json))) .nil)))
  else message_json

/-- `_send_raw_message`: refuse immediately when disconnected or without a
socket handle; otherwise build the wire text and send it, updating
`messages_sent`/`bytes_sent` on success and `messages_failed` plus
`is_connected` on a transport error. -/
def sendRawMessage (gz : String → List Nat) (transportOk : Bool)
    (s : ClientState) (m : DashboardMessage) : Bool × ClientState :=
  if ¬ s.is_connected ∨ ¬ s.websocket then (false, s)
  else
    let final_message := encodeEnvelope gz s.compress_data m
    if transportOk then
      (true, { s with stats := { s.stats with
                 messages_sent := s.stats.messages_sent + 1,
                 bytes_sent := s.stats.bytes_sent + final_message.length } })
    else
      (false, { s with
        is_connected := false,
        stats := { s.stats with
          messages_failed := s.stats.messages_failed + 1 } })

/-! ### Public publish methods and out-of-band sends -/

/-- Shared body of `send_portfolio_data` / `send_trade_signal` /
`send_risk_alert` / `send_system_status`: build an envelope with a fresh
sequence id and put it on the outbound queue. -/
def enqueueTagged (s : ClientState) (tag : String) (payload : Json)
    (now : String) : ClientState :=
  let p := getNextSequenceId s
  { p.2 with message_queue := p.2.message_queue ++
      [{ message_type := tag, timestamp := now, data := payload,
         system_id := s.system_id, sequence_id := p.1 }] }

/-- `send_portfolio_data`. -/
def sendPortfolioData (s : ClientState) (portfolio_data : Json)
    (now : String) : ClientState :=
  enqueueTagged s "portfolio_update" portfolio_data now

/-- `send_trade_signal`. -/
def sendTradeSignal (s : ClientState) (signal_data : Json)
    (now : String) : ClientState :=
  enqueueTagged s "trade_signal" signal_data now

/-- `send_risk_alert`. -/
def sendRiskAlert (s : ClientState) (risk_data : Json) (now : String) :
    ClientState :=
  enqueueTagged s "risk_alert" risk_data now

/-- The stats dictionary as `json.dumps(..., default=str)` renders it:
`None` becomes `null`, a `datetime` is stringified.  The `start_time` key
is included only when present, which never happens. -/
def statsToJson (st : Stats) : Json :=
  .obj (.cons "messages_sent" (.num st.messages_sent)
       (.cons "messages_failed" (.num st.messages_failed)
       (.cons "bytes_sent" (.num st.bytes_sent)
       (.cons "connection_uptime" (.num st.connection_uptime)
       (.cons "last_heartbeat"
          (match st.last_heartbeat with
           | none => Json.null
           | some t => Json.str t)
       (.cons "reconnections" (.num st.reconnections)
          (match st.start_time with
           | none => JObj.nil
           | some t => .cons "start_time" (.num t) .nil)))))))

/-- Rebuild a `JObj` from the configuration association list. -/
def cfgToJObj : List (String × Json) → JObj
  | [] => .nil
  | (k, v) :: rest => .cons k v (cfgToJObj rest)

/-- The `status_data` dictionary built by `send_system_status`. -/
def systemStatusData (s : ClientState) : Json :=
  .obj (.cons "status" (.str (if s.is_running then "running" else "stopped"))
       (.cons "connection"
          (.str (if s.is_connected then "connected" else "disconnected"))
       (.cons "stats" (statsToJson s.stats)
       (.cons "config" (.obj (cfgToJObj s.config)) .nil))))

/-- `send_system_status`: queue a `system_status` envelope with a fresh
sequence id. -/
def sendSystemStatus (s : ClientState) (now : String) : ClientState :=
  enqueueTagged s "system_status" (systemStatusData s) now

/-- The heartbeat payload: current time, `time.time() -
self.stats.get('start_time', time.time())` (both clock reads modelled as
the same instant `nowT`), and the live queue depth. -/
def heartbeatData (s : ClientState) (nowIso : String) (nowT : Int) : Json :=
  .obj (.cons "timestamp" (.str nowIso)
       (.cons "uptime" (.num (nowT - (s.stats.start_time.getD nowT)))
       (.cons "queue_size" (.num s.message_queue.length) .nil)))

/-- The heartbeat envelope, which takes a fresh sequence id
(`sequence_id=self._get_next_sequence_id()` at
`src/websocket_client.py:470`). -/
def heartbeatMessage (s : ClientState) (nowIso : String) (nowT : Int) :
    DashboardMessage :=
  { message_type := "heartbeat", timestamp := nowIso,
    data := heartbeatData s nowIso nowT, system_id := s.system_id,
    sequence_id := (getNextSequenceId s).1 }

/-- `send_heartbeat`: build the heartbeat envelope (consuming a sequence
id) and write it directly through `_send_raw_message`, bypassing the
queue. -/
def sendHeartbeat (gz : String → List Nat) (transportOk : Bool)
    (s : ClientState) (nowIso : String) (nowT : Int) : Bool × ClientState :=
  let m := heartbeatMessage s nowIso nowT
  sendRawMessage gz transportOk (getNextSequenceId s).2 m

/-- The sleep length of each `_heartbeat_worker` cycle:
`await asyncio.sleep(30)`, a constant independent of the state and of
`send_interval`. -/
def heartbeatSleep (_s : ClientState) : Nat := 30

/-- The handshake payload assembled by `_send_handshake`. -/
def handshakeData (s : ClientState) (now : String) : Json :=
  .obj (.cons "system_info"
          (.obj (.cons "system_id" (.str s.system_id)
                (.cons "version" (.str "1.0.0")
                (.cons "timestamp" (.str now)
                (.cons "capabilities"
                   (.arr (JArr.ofList [.str "real_time_data",
                                       .str "compressed_data",
                                       .str "batch_updates"])) .nil)))))
       (.cons "config"
          (.obj (.cons "send_interval" (.num s.send_interval)
                (.cons "batch_size" (.num s.batch_size)
                (.cons "compression" (.bool s.compress_data) .nil)))) .nil))

/-- The handshake envelope: constructed without passing `sequence_id`, so
it keeps the dataclass default `0` and leaves the counter untouched. -/
def handshakeMessage (s : ClientState) (now : String) : DashboardMessage :=
  { message_type := "handshake", timestamp := now,
    data := handshakeData s now, system_id := s.system_id,
    sequence_id := 0 }

/-- `_send_handshake`: send the handshake envelope directly. -/
def sendHandshake (gz : String → List Nat) (transportOk : Bool)
    (s : ClientState) (now : String) : Bool × ClientState :=
  sendRawMessage gz transportOk s (handshakeMessage s now)

/-- The pong envelope built by `_send_pong` (default sequence id `0`). -/
def pongMessage (s : ClientState) (now : String) : DashboardMessage :=
  { message_type := "pong", timestamp := now,
    data := .obj (.cons "status" (.str "ok") .nil),
    system_id := s.system_id, sequence_id := 0 }

/-- `_send_pong`: send the pong envelope directly. -/
def sendPong (gz : String → List Nat) (transportOk : Bool)
    (s : ClientState) (now : String) : Bool × ClientState :=
  sendRawMessage gz transportOk s (pongMessage s now)

/-! ### Reconnect backoff (`_handle_reconnect`) -/

/-- One `_handle_reconnect` call: below the attempt budget, increment the
counter first and wait `min(reconnect_delay * 2**(attempts-1),
max_reconnect_delay)`; once the budget is reached, wait
`max_reconnect_delay` once and reset the counter to 0.  Returns the sleep
length together with the new state. -/
def handleReconnect (s : ClientState) : Nat × ClientState :=
  if s.reconnect_attempts < s.max_reconnect_attempts then
    let attempts := s.reconnect_attempts + 1
    (min (s.reconnect_delay * 2 ^ (attempts - 1)) s.max_reconnect_delay,
     { s with reconnect_attempts := attempts })
  else
    (s.max_reconnect_delay, { s with reconnect_attempts := 0 })

/-! ### Config updates (`_handle_config_update`) -/

/-- Lookup in the configuration dictionary. -/
def cfgLookup : List (String × Json) → String → Option Json
  | [], _ => none
  | (k, v) :: rest, key => if k = key then some v else cfgLookup rest key

/-- Python dict assignment to an existing key: replace the value in
place, keeping the key's position. -/
def cfgSet (c : List (String × Json)) (key : String) (v : Json) :
    List (String × Json) :=
  c.map (fun kv => if kv.1 = key then (key, v) else kv)

/-- One iteration of the `_handle_config_update` loop:
`if key in self.config: self.config[key] = value`. -/
def cfgStep (c : List (String × Json)) (kv : String × Json) :
    List (String × Json) :=
  if (cfgLookup c kv.1).isSome then cfgSet c kv.1 kv.2 else c

/-- `_handle_config_update`: fold the incoming items over the live
configuration dictionary. -/
def handleConfigUpdate (c : List (String × Json))
    (upd : List (String × Json)) : List (String × Json) :=
  upd.foldl cfgStep c

/-! ### The send worker (`_send_worker` / `_send_batch`) -/

/-- The batch-collection loop: `for _ in range(batch_size)` popping with
`get_nowait` until the queue is empty.  Returns the collected messages
(in dequeue order) and the remaining queue. -/
def dequeueBatch : Nat → List DashboardMessage →
    List DashboardMessage × List DashboardMessage
  | 0, q => ([], q)
  | _ + 1, [] => ([], [])
  | n + 1, m :: q =>
      let p := dequeueBatch n q
      (m :: p.1, p.2)

/-- The batch envelope built by `_send_batch`: message type `batch`,
payload `{'messages': [asdict(msg) for msg in messages]}` in dequeue
order, and a fresh sequence id. -/
def batchEnvelope (s : ClientState) (msgs : List DashboardMessage)
    (now : String) : DashboardMessage :=
  { message_type := "batch", timestamp := now,
    data := .obj (.cons "messages" (.arr (JArr.ofList (msgs.map msgToJson)))
                  .nil),
    system_id := s.system_id, sequence_id := (getNextSequenceId s).1 }

/-- `_send_batch`: allocate the batch envelope's sequence id and send it
through `_send_raw_message`. -/
def sendBatch (gz : String → List Nat) (transportOk : Bool)
    (s : ClientState) (msgs : List DashboardMessage) (now : String) :
    Bool × ClientState :=
  sendRawMessage gz transportOk (getNextSequenceId s).2
    (batchEnvelope s msgs now)

/-- What one send-worker cycle put on the wire. -/
inductive SendAction where
  | idle : SendAction
  | standalone (m : DashboardMessage) : SendAction
  | batched (msgs : List DashboardMessage) (env : DashboardMessage) :
      SendAction

/-- One cycle of `_send_worker` (the work before the `send_interval`
sleep): when connected with a non-empty queue, collect up to `batch_size`
messages; exactly one goes out standalone, several go out wrapped in a
batch envelope.  Dequeued messages are never requeued. -/
def sendWorkerCycle (gz : String → List Nat) (transportOk : Bool)
    (s : ClientState) (now : String) : SendAction × ClientState :=
  if s.is_connected ∧ ¬ s.message_queue.isEmpty then
    match dequeueBatch s.batch_size s.message_queue with
    | ([], rest) => (.idle, { s with message_queue := rest })
    | ([m], rest) =>
        (.standalone m,
         (sendRawMessage gz transportOk { s with message_queue := rest } m).2)
    | (m1 :: m2 :: ms, rest) =>
        let s1 : ClientState := { s with message_queue := rest }
        (.batched (m1 :: m2 :: ms) (batchEnvelope s1 (m1 :: m2 :: ms) now),
         (sendBatch gz transportOk s1 (m1 :: m2 :: ms) now).2)
  else (.idle, s)

/-! ### Stopping (`stop`) -/

/-- Externally visible steps `stop` can take, in order.  The vocabulary
includes task cancellation and task awaiting for each background task so
that absence of an action is expressible. -/
inductive StopAction where
  | cancelSendTask : StopAction
  | cancelHeartbeatTask : StopAction
  | cancelConnectionTask : StopAction
  | awaitSendTask : StopAction
  | awaitHeartbeatTask : StopAction
  | awaitConnectionTask : StopAction
  | closeSocket : StopAction
deriving DecidableEq

/-- `stop`: set `is_running` to false, cancel the send and heartbeat
tasks when their handles are set (the handles are not cleared and the
connection-manager task, a local of `start`, is never cancelled), then
close and drop the socket if one is held, clearing `is_connected`.  No
task is awaited.  Returns the new state and the action trace. -/
def stop (s : ClientState) : ClientState × List StopAction :=
  let s1 : ClientState := { s with is_running := false }
  let acts :=
    (if s1.send_task then [StopAction.cancelSendTask] else []) ++
    (if s1.heartbeat_task then [StopAction.cancelHeartbeatTask] else [])
  if s1.websocket then
    ({ s1 with websocket := false, is_connected := false },
     acts ++ [StopAction.closeSocket])
  else (s1, acts)

/-! ### Sequenced operations for the sequence-id invariant (C1)

The operations that stamp a fresh sequence id on a queued or batched
envelope: the four public publish methods and `_send_batch`. -/

/-- A call to one of the sequence-consuming queued/batched operations. -/
inductive QueuedOp where
  | portfolio (d : Json) (now : String) : QueuedOp
  | trade (d : Json) (now : String) : QueuedOp
  | risk (d : Json) (now : String) : QueuedOp
  | status (now : String) : QueuedOp
  | batchSend (gz : String → List Nat) (transportOk : Bool)
      (msgs : List DashboardMessage) (now : String) : QueuedOp

/-- Run one queued/batched operation, returning the sequence id it
assigned and the new state. -/
def runQueuedOp (s : ClientState) : QueuedOp → Nat × ClientState
  | .portfolio d now => ((getNextSequenceId s).1, sendPortfolioData s d now)
  | .trade d now => ((getNextSequenceId s).1, sendTradeSignal s d now)
  | .risk d now => ((getNextSequenceId s).1, sendRiskAlert s d now)
  | .status now => ((getNextSequenceId s).1, sendSystemStatus s now)
  | .batchSend gz ok msgs now =>
      ((getNextSequenceId s).1, (sendBatch gz ok s msgs now).2)

/-- The sequence ids assigned by a run of queued/batched operations, in
call order. -/
def assignedIds (s : ClientState) : List QueuedOp → List Nat
  | [] => []
  | op :: ops =>
      let p := runQueuedOp s op
      p.1 :: assignedIds p.2 ops

/-! ### Envelope decoding (spec section 4.1)

Modelled from the spec: `decode(bytes) -> envelope | DecodeError` is the
dashboard-side half of the codec contract and is not part of this
repository, so it is built from the spec's words: first check for the
`{compressed: true, data: ...}` marker object, and only then parse the
inner structure; without the marker, read the field-named envelope
directly. -/

/-- Read an envelope back from its `asdict` JSON form by field name. -/
def msgOfJson (j : Json) : Option DashboardMessage :=
  match j with
  | .obj ms =>
      match ms.lookup "message_type", ms.lookup "timestamp", ms.lookup "data",
            ms.lookup "system_id", ms.lookup "sequence_id" with
      | some (.str mt), some (.str ts), some d, some (.str sid),
        some (.num sq) =>
          if 0 ≤ sq then
            some { message_type := mt, timestamp := ts, data := d,
                   system_id := sid, sequence_id := sq.toNat }
          else none
      | _, _, _, _, _ => none
  | _ => none

/-- Modelled from the spec: the codec's `decode`.  `gunz` stands for the
byte-level decompression channel (`gzip.decompress` plus UTF-8 decoding),
the inverse of the encoder's `gz` parameter. -/
def decodeEnvelope (gunz : List Nat → Option String) (s : String) :
    Option DashboardMessage :=
  match loadsJ s with
  | none => none
  | some j =>
      match j with
      | .obj ms =>
          match ms.lookup "compressed" with
          | some (.bool true) =>
              match ms.lookup "data" with
              | some (.str payload) =>
                  match b64decode payload with
                  | none => none
                  | some bytes =>
                      match gunz bytes with
                      | none => none
                      | some inner =>
                          match loadsJ inner with
                          | none => none
                          | some ij => msgOfJson ij
              | _ => none
          | _ => msgOfJson j
      | _ => msgOfJson j

/-! ### Auxiliary notions used by the theorems -/

/-- The character list does not continue with a decimal digit, so a
number parse that ends right before it stops there. -/
def numBoundary : List Char → Prop
  | [] => True
  | c :: _ => ¬ (48 ≤ c.toNat ∧ c.toNat ≤ 57)

/-- A concrete invertible byte channel standing in for gzip in witnesses:
each character becomes three big-endian base-256 bytes. -/
def gz3 (s : String) : List Nat :=
  s.data.flatMap (fun c => [c.toNat / 65536, c.toNat / 256 % 256, c.toNat % 256])

/-- Inverse of `gz3` on byte lists. -/
def gunz3Aux : List Nat → Option (List Char)
  | [] => some []
  | a :: b :: c :: rest =>
      match gunz3Aux rest with
      | some cs => some (Char.ofNat (a * 65536 + b * 256 + c) :: cs)
      | none => none
  | _ => none

/-- Inverse of `gz3`. -/
def gunz3 (bs : List Nat) : Option String :=
  (gunz3Aux bs).map String.mk

/-- A trivial byte channel for witnesses that do not inspect the wire
bytes. -/
def gzNull (_s : String) : List Nat := []

/-! ### Whole-client operations

Every state-mutating operation of `WebSocketDashboardClient`, used to
state reachability facts (in particular: no operation ever stores the
`start_time` statistics key). -/

/-- One call into the client, with its external inputs. -/
inductive ClientOp where
  | portfolio (d : Json) (now : String) : ClientOp
  | trade (d : Json) (now : String) : ClientOp
  | risk (d : Json) (now : String) : ClientOp
  | status (now : String) : ClientOp
  | heartbeat (gz : String → List Nat) (ok : Bool) (nowIso : String)
      (nowT : Int) : ClientOp
  | handshake (gz : String → List Nat) (ok : Bool) (now : String) : ClientOp
  | pong (gz : String → List Nat) (ok : Bool) (now : String) : ClientOp
  | raw (gz : String → List Nat) (ok : Bool) (m : DashboardMessage) : ClientOp
  | workerCycle (gz : String → List Nat) (ok : Bool) (now : String) : ClientOp
  | reconnect : ClientOp
  | connectOk : ClientOp
  | readFailure : ClientOp
  | configUpdate (upd : List (String × Json)) : ClientOp
  | stopCall : ClientOp

/-- Apply one client operation to the state.  `connectOk` is the effect
of a successful `_connect` (handle acquired, `is_connected` set,
`reconnections` incremented); `readFailure` is the connection-manager's
reaction to a read error. -/
def applyOp (s : ClientState) : ClientOp → ClientState
  | .portfolio d now => sendPortfolioData s d now
  | .trade d now => sendTradeSignal s d now
  | .risk d now => sendRiskAlert s d now
  | .status now => sendSystemStatus s now
  | .heartbeat gz ok nowIso nowT => (sendHeartbeat gz ok s nowIso nowT).2
  | .handshake gz ok now => (sendHandshake gz ok s now).2
  | .pong gz ok now => (sendPong gz ok s now).2
  | .raw gz ok m => (sendRawMessage gz ok s m).2
  | .workerCycle gz ok now => (sendWorkerCycle gz ok s now).2
  | .reconnect => (handleReconnect s).2
  | .connectOk =>
      { s with
        websocket := true, is_connected := true,
        stats := { s.stats with reconnections := s.stats.reconnections + 1 } }
  | .readFailure => { s with is_connected := false }
  | .configUpdate upd => { s with config := handleConfigUpdate s.config upd }
  | .stopCall => (stop s).1

/-- Apply a run of client operations from left to right. -/
def applyOps (s : ClientState) (ops : List ClientOp) : ClientState :=
  ops.foldl applyOp s

/-! ### Concrete states for witnesses and counterexamples -/

/-- A connected, running client with the default configuration values
(`batch_size=10`, `reconnect_delay=5`, `max_reconnect_delay=300`). -/
def sampleState : ClientState :=
  { config := [("dashboard_url", .str "wss://example.test/ws"),
               ("batch_size", .num 10)],
    max_reconnect_attempts := 10, reconnect_delay := 5,
    max_reconnect_delay := 300, system_id := "nexus_ai_local",
    compress_data := true, batch_size := 10, send_interval := 2,
    websocket := true, is_connected := true, is_running := true,
    reconnect_attempts := 0, sequence_id := 0, message_queue := [],
    send_task := true, heartbeat_task := true, stats := initStats }

/-- A distinct queued envelope per index, for concrete queue scenarios. -/
def sampleMsg (i : Nat) : DashboardMessage :=
  { message_type := "portfolio_update", timestamp := "2025-01-01T00:00:00",
    data := .num i, system_id := "nexus_ai_local", sequence_id := i + 1 }

/-- `sampleState` with `n` distinct envelopes waiting in the queue. -/
def queuedState (n : Nat) : ClientState :=
  { sampleState with
    sequence_id := n,
    message_queue := (List.range n).map sampleMsg }

/-- A concrete envelope with nested objects and unicode payload content,
used to witness the codec round trip. -/
def witnessMsg : DashboardMessage :=
  { message_type := "portfolio_update",
    timestamp := "2025-01-01T00:00:00",
    data := .obj (.cons "total_value" (.num 125000)
           (.cons "positions"
              (.arr (JArr.ofList [.obj (.cons "symbol" (.str "BTC/USDT")
                                       (.cons "pnl" (.num (-42)) .nil)),
                                  .str "héllo ✓ \"quoted\"\n",
                                  .str (String.mk [Char.ofNat 128512]),
                                  .null, .bool false]))
           (.cons "nested" (.obj (.cons "depth" (.obj .nil) .nil)) .nil))),
    system_id := "nexus_ai_local", sequence_id := 7 }


/-- First characters a serialized JSON value can start with. -/
def headStart (c : Char) : Prop :=
  c = 'n' ∨ c = 't' ∨ c = 'f' ∨ c = '"' ∨ c = '[' ∨ c = '\x7b' ∨ c = '-' ∨
    (48 ≤ c.toNat ∧ c.toNat ≤ 57)

/-- The list is non-empty and starts with a possible value head. -/
def headStartL : List Char → Prop
  | [] => False
  | c :: _ => headStart c

/-! # Proofs

## Base64 round trip -/

/-- Decoding a base64 character produced by the encoder recovers its
sextet. -/
theorem b64Val_b64Char : ∀ v : Nat, v < 64 → b64Val (b64Char v) = some v := by
  decide

/-- The encoder never emits the padding character for a sextet. -/
theorem b64Char_ne_pad : ∀ v : Nat, v < 64 → b64Char v ≠ '=' := by
  decide

/-- Base64 decoding inverts encoding on byte lists. -/
theorem b64decodeAux_encodeAux : ∀ bs : List Nat, (∀ b ∈ bs, b < 256) →
    b64decodeAux (b64encodeAux bs) = some bs
  | [], _ => rfl
  | [a], h => by
      have ha : a < 256 := h a (by simp)
      have h1 := b64Val_b64Char (a * 16 / 64) (by omega)
      have h2 := b64Val_b64Char (a * 16 % 64) (by omega)
      simp only [b64encodeAux, b64decodeAux, h1, h2]
      norm_num
      omega
  | [a, b], h => by
      have ha : a < 256 := h a (by simp)
      have hb : b < 256 := h b (by simp)
      have hne := b64Char_ne_pad ((a * 256 + b) * 4 % 64) (by omega)
      have h1 := b64Val_b64Char ((a * 256 + b) * 4 / 4096) (by omega)
      have h2 := b64Val_b64Char ((a * 256 + b) * 4 / 64 % 64) (by omega)
      have h3 := b64Val_b64Char ((a * 256 + b) * 4 % 64) (by omega)
      simp only [b64encodeAux, b64decodeAux, h1, h2, h3, hne]
      norm_num
      constructor <;> omega
  | a :: b :: c :: rest, h => by
      have ha : a < 256 := h a (by simp)
      have hb : b < 256 := h b (by simp)
      have hc : c < 256 := h c (by simp)
      have ih := b64decodeAux_encodeAux rest
        (fun x hx => h x (by simp [hx]))
      have hne3 := b64Char_ne_pad ((a * 65536 + b * 256 + c) / 64 % 64) (by omega)
      have hne4 := b64Char_ne_pad ((a * 65536 + b * 256 + c) % 64) (by omega)
      have h1 := b64Val_b64Char ((a * 65536 + b * 256 + c) / 262144) (by omega)
      have h2 := b64Val_b64Char ((a * 65536 + b * 256 + c) / 4096 % 64) (by omega)
      have h3 := b64Val_b64Char ((a * 65536 + b * 256 + c) / 64 % 64) (by omega)
      have h4 := b64Val_b64Char ((a * 65536 + b * 256 + c) % 64) (by omega)
      simp only [b64encodeAux, b64decodeAux, h1, h2, h3, h4, hne3, hne4, ih]
      norm_num
      refine ⟨by omega, by omega, by omega⟩

/-- Base64 round trip at the string level. -/
theorem b64decode_encode (bs : List Nat) (h : ∀ b ∈ bs, b < 256) :
    b64decode (b64encode bs) = some bs :=
  b64decodeAux_encodeAux bs h

/-! ## Decimal number round trip -/

/-- The code of a digit character. -/
theorem digitChar_toNat : ∀ d : Nat, d < 10 → (digitChar d).toNat = 48 + d := by
  decide

/-- Every character of `natDigits` is a decimal digit. -/
theorem natDigits_digits (n : Nat) :
    ∀ c ∈ natDigits n, 48 ≤ c.toNat ∧ c.toNat ≤ 57 := by
  induction n using Nat.strong_induction_on with
  | _ n ih =>
    match n with
    | 0 => simp [natDigits]
    | m + 1 =>
      intro c hc
      rw [natDigits] at hc
      rcases List.mem_append.mp hc with h | h
      · exact ih ((m + 1) / 10) (Nat.div_lt_self (Nat.succ_pos m) (by norm_num)) c h
      · have hd : (m + 1) % 10 < 10 := Nat.mod_lt _ (by norm_num)
        have := digitChar_toNat ((m + 1) % 10) hd
        simp only [List.mem_singleton] at h
        subst h
        omega

/-- `natDigits` of a positive number is non-empty. -/
theorem natDigits_ne_nil (n : Nat) (h : n ≠ 0) : natDigits n ≠ [] := by
  match n with
  | m + 1 => rw [natDigits]; simp

/-- Unfolding of `natDigits` at a positive argument. -/
theorem natDigits_succ (m : Nat) :
    natDigits (m + 1) = natDigits ((m + 1) / 10) ++ [digitChar ((m + 1) % 10)] := by
  rw [natDigits]

/-- Scanning the digits of `n` accumulates `n` into the accumulator. -/
theorem parseNatAux_natDigits (n : Nat) :
    ∀ acc rest, parseNatAux (natDigits n ++ rest) acc =
      parseNatAux rest (acc * 10 ^ (natDigits n).length + n) := by
  induction n using Nat.strong_induction_on with
  | _ n ih =>
    match n with
    | 0 => intro acc rest; simp [natDigits]
    | m + 1 =>
      intro acc rest
      rw [natDigits_succ, List.append_assoc, List.singleton_append,
        ih ((m + 1) / 10) (Nat.div_lt_self (Nat.succ_pos m) (by norm_num))]
      have hd : (m + 1) % 10 < 10 := Nat.mod_lt _ (by norm_num)
      have ht := digitChar_toNat ((m + 1) % 10) hd
      rw [parseNatAux, if_pos (by omega)]
      congr 1
      simp only [List.length_append, List.length_singleton]
      rw [pow_succ, ← mul_assoc]
      have hmod := Nat.div_add_mod (m + 1) 10
      generalize acc * 10 ^ (natDigits ((m + 1) / 10)).length = B
      omega

/-- The digit scanner stops at a non-digit boundary. -/
theorem parseNatAux_stop (rest : List Char) (acc : Nat)
    (hb : numBoundary rest) : parseNatAux rest acc = (acc, rest) := by
  match rest with
  | [] => rfl
  | c :: cs =>
      rw [parseNatAux, if_neg hb]

/-- Scanning the rendering of a natural number at a non-digit boundary
yields the number and the boundary. -/
theorem parseNatAux_natToString (n : Nat) (rest : List Char)
    (hb : numBoundary rest) :
    parseNatAux ((natToString n).data ++ rest) 0 = (n, rest) := by
  by_cases h0 : n = 0
  · subst h0
    show parseNatAux ('0' :: rest) 0 = (0, rest)
    rw [parseNatAux, if_pos (by decide)]
    simpa using parseNatAux_stop rest _ hb
  · rw [natToString, if_neg h0]
    show parseNatAux (natDigits n ++ rest) 0 = (n, rest)
    rw [parseNatAux_natDigits n 0 rest]
    simpa using parseNatAux_stop rest n hb

/-- The rendering of a natural number starts with a digit. -/
theorem natToString_head (n : Nat) :
    ∃ c cs, (natToString n).data = c :: cs ∧ 48 ≤ c.toNat ∧ c.toNat ≤ 57 := by
  by_cases h0 : n = 0
  · subst h0
    exact ⟨'0', [], rfl, by decide, by decide⟩
  · rw [natToString, if_neg h0]
    match hnd : natDigits n with
    | [] => exact absurd hnd (natDigits_ne_nil n h0)
    | c :: cs =>
        have := natDigits_digits n c (by rw [hnd]; simp)
        exact ⟨c, cs, rfl, this.1, this.2⟩



/-! ## String escape round trip -/


theorem hexVal_hexDigit : ∀ d : Nat, d < 16 → hexVal (hexDigit d) = some d := by
  decide

theorem char_valid (c : Char) :
    c.toNat < 55296 ∨ (57344 ≤ c.toNat ∧ c.toNat < 1114112) := c.valid

theorem hex4val_hex4 (n : Nat) (h : n < 65536) :
    hex4val (hexDigit (n / 4096 % 16)) (hexDigit (n / 256 % 16))
      (hexDigit (n / 16 % 16)) (hexDigit (n % 16)) = some n := by
  rw [hex4val, hexVal_hexDigit _ (by omega), hexVal_hexDigit _ (by omega),
    hexVal_hexDigit _ (by omega), hexVal_hexDigit _ (by omega)]
  simp only [Option.some_bind, Option.map_some']
  congr 1
  omega

theorem unescape_u_pair (c : Char) (hge : 65536 ≤ c.toNat) (T : List Char) :
    unescape ('u' :: (hex4 (55296 + (c.toNat - 65536) / 1024) ++
      ('\\' :: 'u' :: (hex4 (56320 + (c.toNat - 65536) % 1024) ++ T)))) =
      some (c, 11) := by
  have hv := char_valid c
  have hub : c.toNat < 1114112 := by omega
  simp only [hex4, List.cons_append, List.nil_append]
  simp only [unescape]
  norm_num
  rw [parseU4]
  rw [hex4val_hex4 (55296 + (c.toNat - 65536) / 1024) (by omega)]
  rw [Option.some_bind]
  rw [if_pos (show 55296 ≤ 55296 + (c.toNat - 65536) / 1024 ∧
       55296 + (c.toNat - 65536) / 1024 < 56320 by constructor <;> omega)]
  simp only [and_self, ite_true]
  rw [hex4val_hex4 (56320 + (c.toNat - 65536) % 1024) (by omega)]
  rw [Option.some_bind]
  rw [if_pos (show 56320 ≤ 56320 + (c.toNat - 65536) % 1024 ∧
       56320 + (c.toNat - 65536) % 1024 < 57344 by constructor <;> omega)]
  rw [show 65536 + (55296 + (c.toNat - 65536) / 1024 - 55296) * 1024 +
      (56320 + (c.toNat - 65536) % 1024 - 56320) = c.toNat by omega]
  rw [mkChar?, if_pos (Or.inr (by omega))]
  rw [Option.map_some', Char.ofNat_toNat]



theorem unescape_u_single (c : Char) (hlt : c.toNat < 65536) (T : List Char) :
    unescape ('u' :: (hex4 c.toNat ++ T)) = some (c, 5) := by
  have hv := char_valid c
  simp only [hex4, List.cons_append, List.nil_append]
  simp only [unescape]
  norm_num
  rw [parseU4]
  rw [hex4val_hex4 c.toNat hlt]
  rw [Option.some_bind]
  rw [if_neg (by omega)]
  rw [mkChar?, if_pos (by omega)]
  rw [Option.map_some', Char.ofNat_toNat]

theorem psb_backslash (cs : List Char) (p : Char × Nat)
    (h : unescape cs = some p) :
    parseStringBody ('\\' :: cs) =
      (parseStringBody (cs.drop p.2)).map (fun q => (p.1 :: q.1, q.2)) := by
  rw [parseStringBody, if_neg (by decide), if_pos rfl, h]

theorem parseStringBody_escaped (l : List Char) :
    ∀ rest : List Char,
      parseStringBody (l.flatMap escChar ++ '"' :: rest) = some (l, rest) := by
  induction l with
  | nil =>
      intro rest
      rw [List.flatMap_nil, List.nil_append, parseStringBody, if_pos rfl]
  | cons c l' ih =>
      intro rest
      rw [List.flatMap_cons, List.append_assoc]
      by_cases h1 : c = '"'
      · subst h1
        rw [show escChar '"' = ['\\', '"'] from rfl, List.cons_append,
          List.cons_append, List.nil_append, psb_backslash ('"' :: (l'.flatMap escChar ++ '"' :: rest)) ('"', 1) rfl]
        show (parseStringBody (l'.flatMap escChar ++ '"' :: rest)).map
            (fun q => ('"' :: q.1, q.2)) = some ('"' :: l', rest)
        rw [ih]
        rfl
      by_cases h2 : c = '\\'
      · subst h2
        rw [show escChar '\\' = ['\\', '\\'] from rfl, List.cons_append,
          List.cons_append, List.nil_append, psb_backslash ('\\' :: (l'.flatMap escChar ++ '"' :: rest)) ('\\', 1) rfl]
        show (parseStringBody (l'.flatMap escChar ++ '"' :: rest)).map
            (fun q => ('\\' :: q.1, q.2)) = some ('\\' :: l', rest)
        rw [ih]
        rfl
      by_cases h3 : c = '\x08'
      · subst h3
        rw [show escChar '\x08' = ['\\', 'b'] from rfl, List.cons_append,
          List.cons_append, List.nil_append, psb_backslash ('b' :: (l'.flatMap escChar ++ '"' :: rest)) ('\x08', 1) rfl]
        show (parseStringBody (l'.flatMap escChar ++ '"' :: rest)).map
            (fun q => ('\x08' :: q.1, q.2)) = some ('\x08' :: l', rest)
        rw [ih]
        rfl
      by_cases h4 : c = '\x09'
      · subst h4
        rw [show escChar '\x09' = ['\\', 't'] from rfl, List.cons_append,
          List.cons_append, List.nil_append, psb_backslash ('t' :: (l'.flatMap escChar ++ '"' :: rest)) ('\x09', 1) rfl]
        show (parseStringBody (l'.flatMap escChar ++ '"' :: rest)).map
            (fun q => ('\x09' :: q.1, q.2)) = some ('\x09' :: l', rest)
        rw [ih]
        rfl
      by_cases h5 : c = '\x0a'
      · subst h5
        rw [show escChar '\x0a' = ['\\', 'n'] from rfl, List.cons_append,
          List.cons_append, List.nil_append, psb_backslash ('n' :: (l'.flatMap escChar ++ '"' :: rest)) ('\x0a', 1) rfl]
        show (parseStringBody (l'.flatMap escChar ++ '"' :: rest)).map
            (fun q => ('\x0a' :: q.1, q.2)) = some ('\x0a' :: l', rest)
        rw [ih]
        rfl
      by_cases h6 : c = '\x0c'
      · subst h6
        rw [show escChar '\x0c' = ['\\', 'f'] from rfl, List.cons_append,
          List.cons_append, List.nil_append, psb_backslash ('f' :: (l'.flatMap escChar ++ '"' :: rest)) ('\x0c', 1) rfl]
        show (parseStringBody (l'.flatMap escChar ++ '"' :: rest)).map
            (fun q => ('\x0c' :: q.1, q.2)) = some ('\x0c' :: l', rest)
        rw [ih]
        rfl
      by_cases h7 : c = '\x0d'
      · subst h7
        rw [show escChar '\x0d' = ['\\', 'r'] from rfl, List.cons_append,
          List.cons_append, List.nil_append, psb_backslash ('r' :: (l'.flatMap escChar ++ '"' :: rest)) ('\x0d', 1) rfl]
        show (parseStringBody (l'.flatMap escChar ++ '"' :: rest)).map
            (fun q => ('\x0d' :: q.1, q.2)) = some ('\x0d' :: l', rest)
        rw [ih]
        rfl
      by_cases h8 : 32 ≤ c.toNat ∧ c.toNat ≤ 126
      · rw [show escChar c = [c] from by
          unfold escChar
          rw [if_neg h1, if_neg h2, if_neg h3, if_neg h4, if_neg h5, if_neg h6,
            if_neg h7, if_pos h8]]
        rw [List.cons_append, List.nil_append, parseStringBody, if_neg h1,
          if_neg h2, ih]
        rfl
      by_cases h9 : c.toNat < 65536
      · rw [show escChar c = '\\' :: 'u' :: hex4 c.toNat from by
          unfold escChar
          rw [if_neg h1, if_neg h2, if_neg h3, if_neg h4, if_neg h5, if_neg h6,
            if_neg h7, if_neg h8, if_pos h9]]
        rw [List.cons_append, List.cons_append,
          psb_backslash _ (c, 5) (unescape_u_single c h9 _)]
        show (parseStringBody (l'.flatMap escChar ++ '"' :: rest)).map
            (fun q => (c :: q.1, q.2)) = some (c :: l', rest)
        rw [ih]
        rfl
      · rw [show escChar c = ('\\' :: 'u' :: hex4 (55296 + (c.toNat - 65536) / 1024)) ++
            ('\\' :: 'u' :: hex4 (56320 + (c.toNat - 65536) % 1024)) from by
          unfold escChar
          rw [if_neg h1, if_neg h2, if_neg h3, if_neg h4, if_neg h5, if_neg h6,
            if_neg h7, if_neg h8, if_neg h9]]
        simp only [List.cons_append, List.append_assoc]
        rw [psb_backslash _ (c, 11) (unescape_u_pair c (by omega) _)]
        show (parseStringBody (l'.flatMap escChar ++ '"' :: rest)).map
            (fun q => (c :: q.1, q.2)) = some (c :: l', rest)
        rw [ih]
        rfl


/-! ## Value round trip: support lemmas -/

/-- A boundary holds at any non-digit first character. -/
theorem numBoundary_cons (c : Char) (cs : List Char)
    (h : ¬ (48 ≤ c.toNat ∧ c.toNat ≤ 57)) : numBoundary (c :: cs) := h

/-- A digit character is none of the other value dispatch characters. -/
theorem digit_dispatch (c : Char) (h1 : 48 ≤ c.toNat) (h2 : c.toNat ≤ 57) :
    c ≠ 'n' ∧ c ≠ 't' ∧ c ≠ 'f' ∧ c ≠ '"' ∧ c ≠ '[' ∧ c ≠ '\x7b' ∧ c ≠ '-' := by
  refine ⟨?_, ?_, ?_, ?_, ?_, ?_, ?_⟩ <;> intro h <;> subst h <;>
    first
    | exact absurd h2 (by decide)
    | exact absurd h1 (by decide)

/-- Value head characters are not whitespace. -/
theorem headStart_not_ws (c : Char) (h : headStart c) : isWsChar c = false := by
  rcases h with h | h | h | h | h | h | h | h
  · subst h; decide
  · subst h; decide
  · subst h; decide
  · subst h; decide
  · subst h; decide
  · subst h; decide
  · subst h; decide
  · rw [isWsChar]
    simp only [decide_eq_false_iff_not]
    push_neg
    refine ⟨?_, ?_, ?_, ?_⟩ <;> intro he <;> subst he <;>
      first
      | exact absurd h.2 (by decide)
      | exact absurd h.1 (by decide)

/-- Value head characters are not the array terminator. -/
theorem headStart_ne_rbracket (c : Char) (h : headStart c) : c ≠ ']' := by
  rcases h with h | h | h | h | h | h | h | h
  · subst h; decide
  · subst h; decide
  · subst h; decide
  · subst h; decide
  · subst h; decide
  · subst h; decide
  · subst h; decide
  · intro he; subst he; exact absurd h.2 (by decide)

/-- Value head characters are not the object terminator. -/
theorem headStart_ne_rbrace (c : Char) (h : headStart c) : c ≠ '\x7d' := by
  rcases h with h | h | h | h | h | h | h | h
  · subst h; decide
  · subst h; decide
  · subst h; decide
  · subst h; decide
  · subst h; decide
  · subst h; decide
  · subst h; decide
  · intro he; subst he; exact absurd h.2 (by decide)

/-- Every serialized value is non-empty and starts with a dispatch
character. -/
theorem dumpsJ_headStart (j : Json) : headStartL ((dumpsJ j).data) := by
  match j with
  | .null => exact Or.inl rfl
  | .bool true => exact Or.inr (Or.inl rfl)
  | .bool false => exact Or.inr (Or.inr (Or.inl rfl))
  | .num n =>
      match n with
      | Int.ofNat k =>
          obtain ⟨c, cs, hd, hlo, hhi⟩ := natToString_head k
          have he : (dumpsJ (.num (Int.ofNat k))).data = c :: cs := by
            show (intToString (Int.ofNat k)).data = c :: cs
            rw [intToString,
              if_neg (show ¬ Int.ofNat k < 0 from not_lt.mpr (Int.ofNat_nonneg k))]
            show (natToString k).data = c :: cs
            exact hd
          rw [he]
          show headStart c
          exact Or.inr (Or.inr (Or.inr (Or.inr (Or.inr (Or.inr (Or.inr ⟨hlo, hhi⟩))))))
      | Int.negSucc m =>
          have he : (dumpsJ (.num (Int.negSucc m))).data =
              '-' :: (natToString (Int.negSucc m).natAbs).data := by
            show (intToString (Int.negSucc m)).data = _
            rw [intToString, if_pos (Int.negSucc_lt_zero m), String.data_append]
            rfl
          rw [he]
          show headStart '-'
          exact Or.inr (Or.inr (Or.inr (Or.inr (Or.inr (Or.inr (Or.inl rfl))))))
  | .str s =>
      have he : (dumpsJ (.str s)).data =
          '"' :: (s.data.flatMap escChar ++ '"' :: []) := by
        show (quoteString s).data = _
        rw [quoteString, String.data_append, String.data_append]
        rfl
      rw [he]
      exact Or.inr (Or.inr (Or.inr (Or.inl rfl)))
  | .arr .nil => exact Or.inr (Or.inr (Or.inr (Or.inr (Or.inl rfl))))
  | .arr (.cons hd tl) =>
      have he : (dumpsJ (.arr (.cons hd tl))).data =
          '[' :: (((dumpsJ hd).data ++ (dumpsArr tl).data) ++ [']']) := by
        show ("[" ++ dumpsJ hd ++ dumpsArr tl ++ "]").data = _
        rw [String.data_append, String.data_append, String.data_append]
        rfl
      rw [he]
      exact Or.inr (Or.inr (Or.inr (Or.inr (Or.inl rfl))))
  | .obj .nil =>
      exact Or.inr (Or.inr (Or.inr (Or.inr (Or.inr (Or.inl rfl)))))
  | .obj (.cons k v tl) =>
      have he : (dumpsJ (.obj (.cons k v tl))).data =
          '\x7b' :: ((((quoteString k).data ++ [':', ' ']) ++ (dumpsJ v).data ++
            (dumpsObj tl).data) ++ ['\x7d']) := by
        show ("\x7b" ++ quoteString k ++ ": " ++ dumpsJ v ++ dumpsObj tl ++
          "\x7d").data = _
        rw [String.data_append, String.data_append, String.data_append,
          String.data_append, String.data_append]
        simp [List.append_assoc]
      rw [he]
      exact Or.inr (Or.inr (Or.inr (Or.inr (Or.inr (Or.inl rfl)))))

/-- Skipping the single space emitted after a separator. -/
theorem skipWs_not_ws (x : List Char) (c : Char) (cs : List Char)
    (h : x = c :: cs) (hw : isWsChar c = false) : skipWs (' ' :: x) = x := by
  rw [skipWs, if_pos (by decide)]
  rw [h, skipWs, if_neg (by rw [hw]; exact Bool.false_ne_true)]

/-- The parse fuel of a value is positive. -/
theorem jfuel_pos (j : Json) : 1 ≤ jfuel j := by
  cases j <;> simp [jfuel]




/-! ## The serializer/parser round trip -/

mutual

/-- Parsing the serialization of any value, followed by a non-digit
boundary, succeeds and consumes exactly the serialization. -/
theorem parseValue_dumps :
    ∀ (j : Json) (fuel : Nat) (rest : List Char), jfuel j ≤ fuel →
      numBoundary rest →
      parseValue fuel ((dumpsJ j).data ++ rest) = some (j, rest)
  | j, 0, rest, hf, hb =>
      absurd hf (by have := jfuel_pos j; omega)
  | .null, f + 1, rest, hf, hb => by
          show parseValue (f + 1) ('n' :: 'u' :: 'l' :: 'l' :: rest) =
            some (.null, rest)
          rw [parseValue]
          simp
  | .bool true, f + 1, rest, hf, hb => by
          show parseValue (f + 1) ('t' :: 'r' :: 'u' :: 'e' :: rest) =
            some (.bool true, rest)
          rw [parseValue]
          simp
  | .bool false, f + 1, rest, hf, hb => by
          show parseValue (f + 1) ('f' :: 'a' :: 'l' :: 's' :: 'e' :: rest) =
            some (.bool false, rest)
          rw [parseValue]
          simp
  | .num (Int.ofNat k), f + 1, rest, hf, hb => by
          obtain ⟨c, cs, hd, hlo, hhi⟩ := natToString_head k
          obtain ⟨d1, d2, d3, d4, d5, d6, d7⟩ := digit_dispatch c hlo hhi
          have he : (dumpsJ (.num (Int.ofNat k))).data = c :: cs := by
            show (intToString (Int.ofNat k)).data = c :: cs
            rw [intToString,
              if_neg (show ¬ Int.ofNat k < 0 from not_lt.mpr (Int.ofNat_nonneg k))]
            exact hd
          have h' : parseNatAux (c :: (cs ++ rest)) 0 = (k, rest) := by
            rw [← List.cons_append, ← hd]
            exact parseNatAux_natToString k rest hb
          rw [he, List.cons_append, parseValue, if_neg d1, if_neg d2, if_neg d3,
            if_neg d4, if_neg d5, if_neg d6, if_neg d7, if_pos ⟨hlo, hhi⟩]
          simp only [h']
          rfl
  | .num (Int.negSucc m), f + 1, rest, hf, hb => by
          obtain ⟨d, ds, hd2, dlo, dhi⟩ := natToString_head (m + 1)
          have he : (dumpsJ (.num (Int.negSucc m))).data =
              '-' :: (natToString (m + 1)).data := by
            show (intToString (Int.negSucc m)).data = _
            rw [intToString, if_pos (Int.negSucc_lt_zero m), String.data_append]
            rfl
          have hsD : startsDigit ((natToString (m + 1)).data ++ rest) = true := by
            rw [hd2, List.cons_append, startsDigit]
            simp only [decide_eq_true_eq]
            exact ⟨dlo, dhi⟩
          have h' : parseNatAux ((natToString (m + 1)).data ++ rest) 0 =
              (m + 1, rest) := parseNatAux_natToString (m + 1) rest hb
          rw [he, List.cons_append, parseValue,
            if_neg (show ('-' : Char) ≠ 'n' by decide),
            if_neg (show ('-' : Char) ≠ 't' by decide),
            if_neg (show ('-' : Char) ≠ 'f' by decide),
            if_neg (show ('-' : Char) ≠ '"' by decide),
            if_neg (show ('-' : Char) ≠ '[' by decide),
            if_neg (show ('-' : Char) ≠ '\x7b' by decide),
            if_pos rfl, if_pos hsD]
          simp only [h']
          rw [show -((m + 1 : Nat) : Int) = Int.negSucc m by rw [Int.negSucc_eq]; push_cast; ring]
  | .str s, f + 1, rest, hf, hb => by
          have he : (dumpsJ (.str s)).data ++ rest =
              '"' :: (s.data.flatMap escChar ++ '"' :: rest) := by
            show (quoteString s).data ++ rest = _
            rw [quoteString, String.data_append, String.data_append]
            simp [List.append_assoc]
          rw [he, parseValue,
            if_neg (show ('"' : Char) ≠ 'n' by decide),
            if_neg (show ('"' : Char) ≠ 't' by decide),
            if_neg (show ('"' : Char) ≠ 'f' by decide),
            if_pos rfl, parseStringBody_escaped s.data rest]
  | .arr .nil, f + 1, rest, hf, hb => by
          show parseValue (f + 1) ('[' :: ']' :: rest) = some (.arr .nil, rest)
          rw [parseValue]
          simp
  | .arr (.cons hd tl), f + 1, rest, hf, hb => by
          have he : (dumpsJ (.arr (.cons hd tl))).data ++ rest =
              '[' :: ((dumpsJ hd).data ++ ((dumpsArr tl).data ++ ']' :: rest)) := by
            show ("[" ++ dumpsJ hd ++ dumpsArr tl ++ "]").data ++ rest = _
            rw [String.data_append, String.data_append, String.data_append]
            simp [List.append_assoc]
          rw [he, parseValue,
            if_neg (show ('[' : Char) ≠ 'n' by decide),
            if_neg (show ('[' : Char) ≠ 't' by decide),
            if_neg (show ('[' : Char) ≠ 'f' by decide),
            if_neg (show ('[' : Char) ≠ '"' by decide),
            if_pos rfl]
          have hh := dumpsJ_headStart hd
          match hD : (dumpsJ hd).data with
          | [] => rw [hD] at hh; exact absurd hh (by simp [headStartL])
          | c2 :: cs2 =>
              rw [hD] at hh
              have hs : headStart c2 := hh
              rw [List.cons_append, List.head?_cons,
                if_neg (by simp [headStart_ne_rbracket c2 hs]),
                ← List.cons_append, ← hD,
                parseItems_dumps hd tl f rest
                  (by simp only [jfuel] at hf; omega) hb]
  | .obj .nil, f + 1, rest, hf, hb => by
          show parseValue (f + 1) ('\x7b' :: '\x7d' :: rest) =
            some (.obj .nil, rest)
          rw [parseValue]
          simp
  | .obj (.cons k v tl), f + 1, rest, hf, hb => by
          have he : (dumpsJ (.obj (.cons k v tl))).data ++ rest =
              '\x7b' :: ((quoteString k).data ++
                (':' :: ' ' :: ((dumpsJ v).data ++
                  ((dumpsObj tl).data ++ '\x7d' :: rest)))) := by
            show ("\x7b" ++ quoteString k ++ ": " ++ dumpsJ v ++ dumpsObj tl ++
              "\x7d").data ++ rest = _
            rw [String.data_append, String.data_append, String.data_append,
              String.data_append, String.data_append]
            simp [List.append_assoc]
          rw [he, parseValue,
            if_neg (show ('\x7b' : Char) ≠ 'n' by decide),
            if_neg (show ('\x7b' : Char) ≠ 't' by decide),
            if_neg (show ('\x7b' : Char) ≠ 'f' by decide),
            if_neg (show ('\x7b' : Char) ≠ '"' by decide),
            if_neg (show ('\x7b' : Char) ≠ '[' by decide),
            if_pos rfl]
          have hqh : (quoteString k).data =
              '"' :: (k.data.flatMap escChar ++ '"' :: []) := by
            rw [quoteString, String.data_append, String.data_append]
            rfl
          rw [hqh, List.cons_append, List.head?_cons,
            if_neg (by simp), ← List.cons_append, ← hqh,
            parseMembers_dumps k v tl f rest
              (by simp only [jfuel] at hf; omega) hb]

/-- Parsing the serialized items of a non-empty array consumes them and
the closing bracket. -/
theorem parseItems_dumps :
    ∀ (hd : Json) (tl : JArr) (fuel : Nat) (rest : List Char),
      afuel (.cons hd tl) ≤ fuel → numBoundary rest →
      parseItems fuel ((dumpsJ hd).data ++ ((dumpsArr tl).data ++ ']' :: rest)) =
        some (.cons hd tl, rest)
  | hd, tl, 0, rest, hf, hb => absurd hf (by simp [afuel])
  | hd, tl, f + 1, rest, hf, hb => by
      have hbi : numBoundary ((dumpsArr tl).data ++ ']' :: rest) := by
        match tl with
        | .nil => exact numBoundary_cons _ _ (by decide)
        | .cons h2 tl2 =>
            have hx : (dumpsArr (.cons h2 tl2)).data ++ ']' :: rest =
                ',' :: (' ' :: ((dumpsJ h2).data ++
                  ((dumpsArr tl2).data ++ ']' :: rest))) := by
              show (", " ++ dumpsJ h2 ++ dumpsArr tl2).data ++ ']' :: rest = _
              rw [String.data_append, String.data_append]
              simp [List.append_assoc]
            rw [hx]
            exact numBoundary_cons _ _ (by decide)
      rw [parseItems,
        parseValue_dumps hd f _ (by simp only [afuel] at hf; omega) hbi]
      simp only []
      cases tl with
      | nil =>
          rw [show (dumpsArr JArr.nil).data ++ ']' :: rest = ']' :: rest from rfl]
          simp
      | cons h2 tl2 =>
          have hr : (dumpsArr (.cons h2 tl2)).data ++ ']' :: rest =
              ',' :: (' ' :: ((dumpsJ h2).data ++
                ((dumpsArr tl2).data ++ ']' :: rest))) := by
            show (", " ++ dumpsJ h2 ++ dumpsArr tl2).data ++ ']' :: rest = _
            rw [String.data_append, String.data_append]
            simp [List.append_assoc]
          rw [hr]
          simp only []
          rw [if_neg (show (',' : Char) ≠ ']' by decide), if_pos trivial]
          have hh2 := dumpsJ_headStart h2
          match hD2 : (dumpsJ h2).data with
          | [] => rw [hD2] at hh2; exact absurd hh2 (by simp [headStartL])
          | c3 :: cs3 =>
              rw [hD2] at hh2
              have hs2 : headStart c3 := hh2
              rw [skipWs_not_ws _ c3 (cs3 ++ ((dumpsArr tl2).data ++ ']' :: rest))
                  (by rw [List.cons_append]) (headStart_not_ws c3 hs2),
                ← hD2,
                parseItems_dumps h2 tl2 f rest
                  (by simp only [afuel] at hf ⊢; omega) hb]

/-- Parsing the serialized members of a non-empty object consumes them
and the closing brace. -/
theorem parseMembers_dumps :
    ∀ (k : String) (v : Json) (tl : JObj) (fuel : Nat) (rest : List Char),
      ofuel (.cons k v tl) ≤ fuel → numBoundary rest →
      parseMembers fuel ((quoteString k).data ++
          (':' :: ' ' :: ((dumpsJ v).data ++
            ((dumpsObj tl).data ++ '\x7d' :: rest)))) =
        some (.cons k v tl, rest)
  | k, v, tl, 0, rest, hf, hb => absurd hf (by simp [ofuel])
  | k, v, tl, f + 1, rest, hf, hb => by
      have hqh : (quoteString k).data =
          '"' :: (k.data.flatMap escChar ++ '"' :: []) := by
        rw [quoteString, String.data_append, String.data_append]
        rfl
      have hq2 : (quoteString k).data ++
          (':' :: ' ' :: ((dumpsJ v).data ++
            ((dumpsObj tl).data ++ '\x7d' :: rest))) =
          '"' :: (k.data.flatMap escChar ++
            '"' :: (':' :: ' ' :: ((dumpsJ v).data ++
              ((dumpsObj tl).data ++ '\x7d' :: rest)))) := by
        rw [hqh]
        simp [List.append_assoc]
      have hbi : numBoundary ((dumpsObj tl).data ++ '\x7d' :: rest) := by
        match tl with
        | .nil => exact numBoundary_cons _ _ (by decide)
        | .cons k2 v2 tl2 =>
            have hx : (dumpsObj (.cons k2 v2 tl2)).data ++ '\x7d' :: rest =
                ',' :: (' ' :: ((quoteString k2).data ++
                  (':' :: ' ' :: ((dumpsJ v2).data ++
                    ((dumpsObj tl2).data ++ '\x7d' :: rest))))) := by
              show (", " ++ quoteString k2 ++ ": " ++ dumpsJ v2 ++
                dumpsObj tl2).data ++ '\x7d' :: rest = _
              rw [String.data_append, String.data_append, String.data_append,
                String.data_append]
              simp [List.append_assoc]
            rw [hx]
            exact numBoundary_cons _ _ (by decide)
      rw [hq2, parseMembers, if_pos rfl,
        parseStringBody_escaped k.data
          (':' :: ' ' :: ((dumpsJ v).data ++
            ((dumpsObj tl).data ++ '\x7d' :: rest)))]
      simp only []
      rw [if_pos trivial]
      have hhv := dumpsJ_headStart v
      match hDv : (dumpsJ v).data with
      | [] => rw [hDv] at hhv; exact absurd hhv (by simp [headStartL])
      | cv :: csv =>
          rw [hDv] at hhv
          have hsv : headStart cv := hhv
          rw [skipWs_not_ws _ cv (csv ++ ((dumpsObj tl).data ++ '\x7d' :: rest))
              (by rw [List.cons_append]) (headStart_not_ws cv hsv),
            ← hDv,
            parseValue_dumps v f _ (by simp only [ofuel] at hf; omega) hbi]
          simp only []
          cases tl with
          | nil =>
              rw [show (dumpsObj JObj.nil).data ++ '\x7d' :: rest =
                '\x7d' :: rest from rfl]
              simp
          | cons k2 v2 tl2 =>
              have hr : (dumpsObj (.cons k2 v2 tl2)).data ++ '\x7d' :: rest =
                  ',' :: (' ' :: ((quoteString k2).data ++
                    (':' :: ' ' :: ((dumpsJ v2).data ++
                      ((dumpsObj tl2).data ++ '\x7d' :: rest))))) := by
                show (", " ++ quoteString k2 ++ ": " ++ dumpsJ v2 ++
                  dumpsObj tl2).data ++ '\x7d' :: rest = _
                rw [String.data_append, String.data_append, String.data_append,
                  String.data_append]
                simp [List.append_assoc]
              rw [hr]
              simp only []
              rw [if_neg (show (',' : Char) ≠ '\x7d' by decide), if_pos trivial]
              have hqh2 : (quoteString k2).data =
                  '"' :: (k2.data.flatMap escChar ++ '"' :: []) := by
                rw [quoteString, String.data_append, String.data_append]
                rfl
              rw [skipWs_not_ws _ '"'
                  ((k2.data.flatMap escChar ++ '"' :: []) ++
                    (':' :: ' ' :: ((dumpsJ v2).data ++
                      ((dumpsObj tl2).data ++ '\x7d' :: rest))))
                  (by rw [hqh2, List.cons_append]) (by decide),
                parseMembers_dumps k2 v2 tl2 f rest
                  (by simp only [ofuel] at hf ⊢; omega) hb]

end




/-! ## Top-level document round trip -/

mutual

/-- The fuel needed for a value is covered by its serialized length. -/
theorem jfuel_le : ∀ j : Json, jfuel j ≤ (dumpsJ j).length
  | .null => by simp only [jfuel]; decide
  | .bool true => by simp only [jfuel]; decide
  | .bool false => by simp only [jfuel]; decide
  | .num n => by
      have hh := dumpsJ_headStart (.num n)
      match hD : (dumpsJ (.num n)).data with
      | [] => rw [hD] at hh; exact absurd hh (by simp [headStartL])
      | c :: cs =>
          have : (dumpsJ (.num n)).length = cs.length + 1 := by
            show (dumpsJ (.num n)).data.length = cs.length + 1
            rw [hD, List.length_cons]
          rw [this]
          simp [jfuel]
  | .str s => by
      have : (dumpsJ (.str s)).length =
          2 + (s.data.flatMap escChar).length := by
        show (quoteString s).length = _
        rw [quoteString, String.length_append, String.length_append]
        show 1 + (s.data.flatMap escChar).length + 1 = _
        omega
      rw [jfuel, this]
      omega
  | .arr .nil => by simp only [jfuel, afuel]; decide
  | .arr (.cons hd tl) => by
      have h1 := jfuel_le hd
      have h2 := afuel_le tl
      have : (dumpsJ (.arr (.cons hd tl))).length =
          1 + (dumpsJ hd).length + (dumpsArr tl).length + 1 := by
        show ("[" ++ dumpsJ hd ++ dumpsArr tl ++ "]").length = _
        rw [String.length_append, String.length_append, String.length_append]
        rfl
      rw [this]
      simp only [jfuel, afuel]
      omega
  | .obj .nil => by simp only [jfuel, ofuel]; decide
  | .obj (.cons k v tl) => by
      have h1 := jfuel_le v
      have h2 := ofuel_le tl
      have : (dumpsJ (.obj (.cons k v tl))).length =
          1 + (quoteString k).length + 2 + (dumpsJ v).length +
            (dumpsObj tl).length + 1 := by
        show ("\x7b" ++ quoteString k ++ ": " ++ dumpsJ v ++ dumpsObj tl ++
          "\x7d").length = _
        rw [String.length_append, String.length_append, String.length_append,
          String.length_append, String.length_append]
        show 1 + (quoteString k).length + 2 + (dumpsJ v).length +
          (dumpsObj tl).length + 1 = _
        rfl
      rw [this]
      simp only [jfuel, ofuel]
      omega

/-- The fuel needed for array items is covered by their serialized
length. -/
theorem afuel_le : ∀ a : JArr, afuel a ≤ (dumpsArr a).length
  | .nil => by simp [afuel]
  | .cons hd tl => by
      have h1 := jfuel_le hd
      have h2 := afuel_le tl
      have : (dumpsArr (.cons hd tl)).length =
          2 + (dumpsJ hd).length + (dumpsArr tl).length := by
        show (", " ++ dumpsJ hd ++ dumpsArr tl).length = _
        rw [String.length_append, String.length_append]
        rfl
      rw [this]
      simp only [afuel]
      omega

/-- The fuel needed for object members is covered by their serialized
length. -/
theorem ofuel_le : ∀ o : JObj, ofuel o ≤ (dumpsObj o).length
  | .nil => by simp [ofuel]
  | .cons k v tl => by
      have h1 := jfuel_le v
      have h2 := ofuel_le tl
      have : (dumpsObj (.cons k v tl)).length =
          2 + (quoteString k).length + 2 + (dumpsJ v).length +
            (dumpsObj tl).length := by
        show (", " ++ quoteString k ++ ": " ++ dumpsJ v ++ dumpsObj tl).length = _
        rw [String.length_append, String.length_append, String.length_append,
          String.length_append]
        rfl
      rw [this]
      simp only [ofuel]
      omega

end

/-- Parsing a serialized JSON document recovers the value:
`json.loads(json.dumps(v)) == v` for the modelled fragment. -/
theorem loadsJ_dumpsJ (j : Json) : loadsJ (dumpsJ j) = some j := by
  have hp := parseValue_dumps j ((dumpsJ j).length + 1) []
    (Nat.le_succ_of_le (jfuel_le j)) trivial
  rw [List.append_nil] at hp
  rw [loadsJ, hp]


/-! ## Envelope codec round trip (claim C5 support) -/

/-- Reading back the `asdict` form of an envelope by field name recovers
the envelope. -/
theorem msgOfJson_msgToJson (m : DashboardMessage) :
    msgOfJson (msgToJson m) = some m := by
  rw [msgToJson, msgOfJson]
  simp only [JObj.lookup]
  simp only [String.reduceEq, ite_true, ite_false, reduceIte]
  rw [if_pos (Int.ofNat_nonneg m.sequence_id)]
  rfl

/-- The byte channel of the `gz3` witness codec splits every character
into three bytes below 256. -/
theorem gz3_bytes_lt (s : String) : ∀ b ∈ gz3 s, b < 256 := by
  intro b hb
  rw [gz3] at hb
  simp only [List.mem_flatMap, List.mem_cons, List.not_mem_nil, or_false] at hb
  obtain ⟨c, _, hc⟩ := hb
  have := char_valid c
  rcases hc with h | h | h <;> subst h <;> omega

/-- Decoding inverts the `gz3` witness byte channel. -/
theorem gunz3Aux_gz3 : ∀ l : List Char,
    gunz3Aux (l.flatMap
      (fun c => [c.toNat / 65536, c.toNat / 256 % 256, c.toNat % 256])) =
      some l
  | [] => rfl
  | c :: l' => by
      have ih := gunz3Aux_gz3 l'
      have hv := char_valid c
      rw [List.flatMap_cons]
      simp only [List.cons_append, List.nil_append]
      rw [gunz3Aux, ih]
      rw [show c.toNat / 65536 * 65536 + c.toNat / 256 % 256 * 256 +
        c.toNat % 256 = c.toNat by omega]
      rw [Char.ofNat_toNat]

/-- `gunz3` inverts `gz3`. -/
theorem gunz3_gz3 (s : String) : gunz3 (gz3 s) = some s := by
  rw [gz3, gunz3, gunz3Aux_gz3]
  rfl

/-- C5: For every envelope (including nested objects and unicode strings in
its payload) and any byte-level compression channel satisfying the gzip
library's round-trip law, the compressed encoding wraps the base64 of the
compressed serialized envelope in the `\x7bcompressed: true, data: ...\x7d`
marker object, the decoder checks that marker first, and decoding the
compressed encoding recovers the envelope exactly. -/
theorem decodeEnvelope_encodeEnvelope (gz : String → List Nat)
    (gunz : List Nat → Option String)
    (hinv : ∀ s, gunz (gz s) = some s)
    (hbytes : ∀ s, ∀ b ∈ gz s, b < 256) (m : DashboardMessage) :
    decodeEnvelope gunz (encodeEnvelope gz true m) = some m := by
  rw [encodeEnvelope]
  simp only [ite_true]
  rw [decodeEnvelope, loadsJ_dumpsJ]
  simp only [JObj.lookup]
  simp only [String.reduceEq, ite_true, ite_false, reduceIte]
  rw [b64decode_encode _ (hbytes _)]
  simp only []
  rw [hinv]
  simp only []
  rw [loadsJ_dumpsJ]
  simp only []
  rw [msgOfJson_msgToJson]

/-! ## Client state lemmas -/

/-- `_send_raw_message` only touches the statistics counters and the
connection flag: queue, sequence counter, configuration-derived fields,
task handles and the `start_time` key are untouched. -/
theorem sendRawMessage_preserves (gz : String → List Nat) (ok : Bool)
    (s : ClientState) (m : DashboardMessage) :
    (sendRawMessage gz ok s m).2.message_queue = s.message_queue ∧
    (sendRawMessage gz ok s m).2.sequence_id = s.sequence_id ∧
    (sendRawMessage gz ok s m).2.stats.start_time = s.stats.start_time ∧
    (sendRawMessage gz ok s m).2.is_running = s.is_running ∧
    (sendRawMessage gz ok s m).2.batch_size = s.batch_size ∧
    (sendRawMessage gz ok s m).2.websocket = s.websocket := by
  rw [sendRawMessage]
  by_cases h : ¬ s.is_connected ∨ ¬ s.websocket
  · rw [if_pos h]
    exact ⟨rfl, rfl, rfl, rfl, rfl, rfl⟩
  · rw [if_neg h]
    cases ok
    · exact ⟨rfl, rfl, rfl, rfl, rfl, rfl⟩
    · exact ⟨rfl, rfl, rfl, rfl, rfl, rfl⟩

/-- Each queued/batched operation assigns the next sequence id and leaves
the counter at that value. -/
theorem runQueuedOp_seq (s : ClientState) (op : QueuedOp) :
    (runQueuedOp s op).1 = s.sequence_id + 1 ∧
    (runQueuedOp s op).2.sequence_id = s.sequence_id + 1 := by
  cases op with
  | portfolio d now => exact ⟨rfl, rfl⟩
  | trade d now => exact ⟨rfl, rfl⟩
  | risk d now => exact ⟨rfl, rfl⟩
  | status now => exact ⟨rfl, rfl⟩
  | batchSend gz ok msgs now =>
      refine ⟨rfl, ?_⟩
      show (sendBatch gz ok s msgs now).2.sequence_id = s.sequence_id + 1
      rw [sendBatch]
      exact (sendRawMessage_preserves gz ok (getNextSequenceId s).2 _).2.1

/-- Unfolding of `List.range'` at a positive length. -/
theorem range'_succ_eq (a n : Nat) :
    List.range' a (n + 1) = a :: List.range' (a + 1) n := by
  simp [List.range']

/-- The assigned ids of a run are the consecutive integers after the
starting counter. -/
theorem assignedIds_eq (ops : List QueuedOp) :
    ∀ s : ClientState,
      assignedIds s ops = List.range' (s.sequence_id + 1) ops.length := by
  induction ops with
  | nil => intro s; rfl
  | cons op ops ih =>
      intro s
      rw [assignedIds]
      obtain ⟨h1, h2⟩ := runQueuedOp_seq s op
      rw [List.length_cons, range'_succ_eq]
      rw [ih (runQueuedOp s op).2, h1, h2]

/-- Consecutive ranges increase by exactly one at each step. -/
theorem chain_range' : ∀ (n a : Nat),
    List.Chain' (fun x y => y = x + 1) (List.range' a n)
  | 0, a => by simp
  | 1, a => by simp [range'_succ_eq]
  | n + 2, a => by
      rw [range'_succ_eq, range'_succ_eq]
      rw [List.chain'_cons]
      refine ⟨rfl, ?_⟩
      rw [← range'_succ_eq]
      exact chain_range' (n + 1) (a + 1)

/-- The collection loop of `_send_worker` takes a prefix of the queue and
leaves the corresponding suffix. -/
theorem dequeueBatch_eq : ∀ (n : Nat) (q : List DashboardMessage),
    dequeueBatch n q = (q.take n, q.drop n)
  | 0, q => rfl
  | n + 1, [] => rfl
  | n + 1, m :: q => by
      rw [dequeueBatch, dequeueBatch_eq n q]
      rfl

/-- A send-worker cycle with a connected client and a non-empty queue
always leaves exactly the part of the queue beyond `batch_size`, no
matter whether the send succeeds. -/
theorem sendWorkerCycle_queue (gz : String → List Nat) (ok : Bool)
    (s : ClientState) (now : String) (hc : s.is_connected = true)
    (hq : s.message_queue ≠ []) :
    (sendWorkerCycle gz ok s now).2.message_queue =
      s.message_queue.drop s.batch_size := by
  rw [sendWorkerCycle, if_pos ⟨hc, by simp [hq]⟩,
    dequeueBatch_eq]
  match htake : s.message_queue.take s.batch_size with
  | [] => rfl
  | [m] =>
      exact (sendRawMessage_preserves gz ok
        { s with message_queue := s.message_queue.drop s.batch_size } m).1
  | m1 :: m2 :: ms =>
      show (sendBatch gz ok _ _ now).2.message_queue = _
      rw [sendBatch]
      exact (sendRawMessage_preserves gz ok _ _).1

/-! ## Configuration-update lemmas -/

/-- Replacing a key's value changes the lookup of exactly that key, and
only when the key is present. -/
theorem cfgLookup_cfgSet (c : List (String × Json)) (key k : String)
    (v : Json) :
    cfgLookup (cfgSet c key v) k =
      if key = k ∧ (cfgLookup c k).isSome then some v else cfgLookup c k := by
  induction c with
  | nil => simp [cfgSet, cfgLookup]
  | cons kv rest ih =>
      obtain ⟨k0, v0⟩ := kv
      show cfgLookup ((if k0 = key then (key, v) else (k0, v0)) ::
        cfgSet rest key v) k = _
      by_cases h0 : k0 = key
      · rw [if_pos h0]
        by_cases hk : key = k
        · subst hk
          rw [cfgLookup, if_pos rfl, cfgLookup, if_pos h0, if_pos ⟨rfl, rfl⟩]
        · rw [cfgLookup, if_neg hk, ih, cfgLookup,
            if_neg (fun hc : k0 = k => hk (h0.symm.trans hc))]
      · rw [if_neg h0]
        by_cases hk0 : k0 = k
        · rw [cfgLookup, if_pos hk0, cfgLookup, if_pos hk0,
            if_neg (fun hc => h0 (hk0.trans hc.1.symm))]
        · rw [cfgLookup, if_neg hk0, ih, cfgLookup, if_neg hk0]

/-- One `_handle_config_update` iteration as a lookup table: the incoming
key's value lands only on a key already present. -/
theorem cfgStep_lookup (c : List (String × Json)) (kv : String × Json)
    (k : String) :
    cfgLookup (cfgStep c kv) k =
      if kv.1 = k ∧ (cfgLookup c k).isSome then some kv.2
      else cfgLookup c k := by
  rw [cfgStep]
  by_cases h : (cfgLookup c kv.1).isSome
  · rw [if_pos h, cfgLookup_cfgSet]
  · rw [if_neg h]
    by_cases hk : kv.1 = k
    · subst hk
      rw [if_neg (fun hc => h hc.2)]
    · rw [if_neg (fun hc => hk hc.1)]

/-- Replacing a value keeps the dictionary's key list. -/
theorem cfgSet_fst (c : List (String × Json)) (key : String) (v : Json) :
    (cfgSet c key v).map Prod.fst = c.map Prod.fst := by
  induction c with
  | nil => rfl
  | cons kv rest ih =>
      obtain ⟨k0, v0⟩ := kv
      show ((if k0 = key then (key, v) else (k0, v0)) ::
        cfgSet rest key v).map Prod.fst = _
      by_cases h : k0 = key
      · subst h
        rw [if_pos rfl, List.map_cons, List.map_cons, ih]
      · rw [if_neg h, List.map_cons, List.map_cons, ih]

/-- One update iteration keeps the dictionary's key list. -/
theorem cfgStep_fst (c : List (String × Json)) (kv : String × Json) :
    (cfgStep c kv).map Prod.fst = c.map Prod.fst := by
  rw [cfgStep]
  by_cases h : (cfgLookup c kv.1).isSome
  · rw [if_pos h, cfgSet_fst]
  · rw [if_neg h]

/-- `_handle_config_update` keeps the dictionary's key list. -/
theorem handleConfigUpdate_fst (upd : List (String × Json)) :
    ∀ c, (handleConfigUpdate c upd).map Prod.fst = c.map Prod.fst := by
  induction upd with
  | nil => intro c; rfl
  | cons kv rest ih =>
      intro c
      show (handleConfigUpdate (cfgStep c kv) rest).map Prod.fst = _
      rw [ih (cfgStep c kv), cfgStep_fst]

/-- `_handle_config_update` keeps each key's presence. -/
theorem handleConfigUpdate_isSome (upd : List (String × Json)) :
    ∀ c k, (cfgLookup (handleConfigUpdate c upd) k).isSome =
      (cfgLookup c k).isSome := by
  induction upd with
  | nil => intro c k; rfl
  | cons kv rest ih =>
      intro c k
      show (cfgLookup (handleConfigUpdate (cfgStep c kv) rest) k).isSome = _
      rw [ih (cfgStep c kv) k, cfgStep_lookup]
      by_cases h : kv.1 = k ∧ (cfgLookup c k).isSome
      · rw [if_pos h, h.2]; rfl
      · rw [if_neg h]

/-- `_handle_config_update` never touches a key the update leaves out. -/
theorem handleConfigUpdate_frame (upd : List (String × Json)) :
    ∀ c k, (∀ w, (k, w) ∉ upd) →
      cfgLookup (handleConfigUpdate c upd) k = cfgLookup c k := by
  induction upd with
  | nil => intro c k _; rfl
  | cons kv rest ih =>
      intro c k hk
      show cfgLookup (handleConfigUpdate (cfgStep c kv) rest) k = _
      rw [ih (cfgStep c kv) k (fun w hw => hk w (List.mem_cons_of_mem kv hw)),
        cfgStep_lookup]
      rw [if_neg (fun hc => hk kv.2 (by rw [← hc.1]; exact List.mem_cons_self kv rest))]

/-! ## Statistics lemmas for the heartbeat payload -/

/-- One `_send_worker` cycle never touches the `start_time` statistic. -/
theorem sendWorkerCycle_start_time (gz : String → List Nat) (ok : Bool)
    (s : ClientState) (now : String) :
    (sendWorkerCycle gz ok s now).2.stats.start_time =
      s.stats.start_time := by
  rw [sendWorkerCycle]
  by_cases h : s.is_connected ∧ ¬ s.message_queue.isEmpty
  · rw [if_pos h]
    match dequeueBatch s.batch_size s.message_queue with
    | ([], rest) => rfl
    | ([m], rest) =>
        exact (sendRawMessage_preserves gz ok
          { s with message_queue := rest } m).2.2.1
    | (m1 :: m2 :: ms, rest) =>
        show (sendBatch gz ok _ _ now).2.stats.start_time = _
        rw [sendBatch]
        exact (sendRawMessage_preserves gz ok _ _).2.2.1
  · rw [if_neg h]

/-- No client operation ever stores the `start_time` statistics key: the
code never writes `self.stats['start_time']`. -/
theorem applyOp_start_time (s : ClientState) (op : ClientOp) :
    (applyOp s op).stats.start_time = s.stats.start_time := by
  cases op with
  | portfolio d now => rfl
  | trade d now => rfl
  | risk d now => rfl
  | status now => rfl
  | heartbeat gz ok a b =>
      exact (sendRawMessage_preserves gz ok (getNextSequenceId s).2 _).2.2.1
  | handshake gz ok now =>
      exact (sendRawMessage_preserves gz ok s _).2.2.1
  | pong gz ok now =>
      exact (sendRawMessage_preserves gz ok s _).2.2.1
  | raw gz ok m =>
      exact (sendRawMessage_preserves gz ok s m).2.2.1
  | workerCycle gz ok now => exact sendWorkerCycle_start_time gz ok s now
  | reconnect =>
      show (handleReconnect s).2.stats.start_time = _
      rw [handleReconnect]
      by_cases h : s.reconnect_attempts < s.max_reconnect_attempts
      · rw [if_pos h]
      · rw [if_neg h]
  | connectOk => rfl
  | readFailure => rfl
  | configUpdate upd => rfl
  | stopCall =>
      show (stop s).1.stats.start_time = _
      rw [stop]
      by_cases h : s.websocket
      · rw [if_pos h]
      · rw [if_neg h]

/-- A run of client operations never stores `start_time`. -/
theorem applyOps_start_time (ops : List ClientOp) :
    ∀ s : ClientState,
      (applyOps s ops).stats.start_time = s.stats.start_time := by
  induction ops with
  | nil => intro s; rfl
  | cons op ops ih =>
      intro s
      show (applyOps (applyOp s op) ops).stats.start_time = _
      rw [ih (applyOp s op), applyOp_start_time]

/-! ## The claims -/

/-- C1: For every starting state and every sequence of calls to
`send_portfolio_data`, `send_trade_signal`, `send_risk_alert`,
`send_system_status` and `_send_batch`, the sequence ids assigned to the
queued/batched envelopes are the consecutive integers after the current
counter — strictly increasing by exactly one, never repeating — and the
counter is never reset by `_handle_reconnect`, by a read failure, or by a
successful reconnect, so numbering continues across a dropped
connection. -/
theorem c1_sequence_ids_strictly_increasing (s : ClientState)
    (ops : List QueuedOp) :
    assignedIds s ops = List.range' (s.sequence_id + 1) ops.length ∧
    List.Chain' (fun x y => y = x + 1) (assignedIds s ops) ∧
    (assignedIds s ops).Nodup ∧
    (handleReconnect s).2.sequence_id = s.sequence_id ∧
    (applyOp s ClientOp.readFailure).sequence_id = s.sequence_id ∧
    (applyOp s ClientOp.connectOk).sequence_id = s.sequence_id := by
  refine ⟨assignedIds_eq ops s, ?_, ?_, ?_, rfl, rfl⟩
  · rw [assignedIds_eq ops s]
    exact chain_range' ops.length (s.sequence_id + 1)
  · rw [assignedIds_eq ops s]
    exact List.nodup_range' (s.sequence_id + 1) ops.length
  · rw [handleReconnect]
    by_cases h : s.reconnect_attempts < s.max_reconnect_attempts
    · rw [if_pos h]
    · rw [if_neg h]

/-- C2 as frozen is false: `send_heartbeat` does consume the shared
counter.  On the concrete sample state (counter at 0), one heartbeat
leaves the counter at 1. -/
theorem c2_counterexample :
    sampleState.sequence_id = 0 ∧
    (sendHeartbeat gzNull true sampleState "2025-01-01T00:00:00"
      0).2.sequence_id = 1 :=
  ⟨rfl, rfl⟩

/-- C2 (amended): handshake and pong envelopes carry the dataclass default
`sequence_id = 0` and leave the shared counter untouched, but
`send_heartbeat` builds its envelope with `_get_next_sequence_id()`
(`src/websocket_client.py:470`), so every heartbeat consumes the counter
and advances it by one. -/
theorem c2_heartbeat_consumes_counter (gz : String → List Nat) (ok : Bool)
    (s : ClientState) (nowIso now : String) (nowT : Int) :
    (heartbeatMessage s nowIso nowT).sequence_id = s.sequence_id + 1 ∧
    (sendHeartbeat gz ok s nowIso nowT).2.sequence_id = s.sequence_id + 1 ∧
    (handshakeMessage s now).sequence_id = 0 ∧
    (sendHandshake gz ok s now).2.sequence_id = s.sequence_id ∧
    (pongMessage s now).sequence_id = 0 ∧
    (sendPong gz ok s now).2.sequence_id = s.sequence_id :=
  ⟨rfl,
   (sendRawMessage_preserves gz ok (getNextSequenceId s).2
     (heartbeatMessage s nowIso nowT)).2.1,
   rfl,
   (sendRawMessage_preserves gz ok s (handshakeMessage s now)).2.1,
   rfl,
   (sendRawMessage_preserves gz ok s (pongMessage s now)).2.1⟩

/-- C3: Below the attempt budget `_handle_reconnect` increments the
counter first and waits `min(reconnect_delay * 2^(attempts-1),
max_reconnect_delay)`; with `base_delay=5, max_delay=300` the waits for
attempts 1..6 are 5,10,20,40,80,160 and 300 for every later attempt
within the budget; once the budget is exhausted it waits
`max_reconnect_delay` once and resets the counter to 0, so the client
never permanently gives up. -/
theorem c3_reconnect_backoff (s : ClientState) :
    (s.reconnect_attempts < s.max_reconnect_attempts →
       (handleReconnect s).2.reconnect_attempts = s.reconnect_attempts + 1 ∧
       (handleReconnect s).1 =
         min (s.reconnect_delay * 2 ^ (s.reconnect_attempts + 1 - 1))
           s.max_reconnect_delay) ∧
    (s.max_reconnect_attempts ≤ s.reconnect_attempts →
       (handleReconnect s).1 = s.max_reconnect_delay ∧
       (handleReconnect s).2.reconnect_attempts = 0) ∧
    (List.range 6).map (fun a => (handleReconnect { s with
        reconnect_attempts := a, max_reconnect_attempts := 10,
        reconnect_delay := 5, max_reconnect_delay := 300 }).1)
      = [5, 10, 20, 40, 80, 160] ∧
    (∀ a, 6 ≤ a → a < 10 → (handleReconnect { s with
        reconnect_attempts := a, max_reconnect_attempts := 10,
        reconnect_delay := 5, max_reconnect_delay := 300 }).1 = 300) := by
  refine ⟨fun h => ?_, fun h => ?_, rfl, fun a h6 h10 => ?_⟩
  · rw [handleReconnect, if_pos h]
    exact ⟨rfl, rfl⟩
  · rw [handleReconnect, if_neg (not_lt.mpr h)]
    exact ⟨rfl, rfl⟩
  · have hc : ({ s with
        reconnect_attempts := a, max_reconnect_attempts := 10,
        reconnect_delay := 5,
        max_reconnect_delay := 300 } : ClientState).reconnect_attempts <
        ({ s with
          reconnect_attempts := a, max_reconnect_attempts := 10,
          reconnect_delay := 5,
          max_reconnect_delay := 300 } : ClientState).max_reconnect_attempts :=
      h10
    rw [handleReconnect, if_pos hc]
    show min (5 * 2 ^ (a + 1 - 1)) 300 = 300
    rw [Nat.add_sub_cancel]
    refine Nat.min_eq_right ?_
    calc (300 : Nat) ≤ 5 * 2 ^ 6 := by norm_num
      _ ≤ 5 * 2 ^ a :=
        Nat.mul_le_mul_left 5 (Nat.pow_le_pow_right (by norm_num) h6)

/-- The C3 backoff on concrete runs: attempt 4 within the budget waits
`min(5*2^3, 300) = 40`; past the budget the counter resets to 0; attempt
8 of 10 with the default delays waits the 300 cap. -/
theorem c3_witness :
    (handleReconnect { sampleState with
      reconnect_attempts := 3 }).2.reconnect_attempts = 4 ∧
    (handleReconnect { sampleState with
      reconnect_attempts := 10 }).2.reconnect_attempts = 0 ∧
    (handleReconnect { sampleState with
      reconnect_attempts := 7, max_reconnect_attempts := 10,
      reconnect_delay := 5, max_reconnect_delay := 300 }).1 = 300 :=
  ⟨((c3_reconnect_backoff { sampleState with
      reconnect_attempts := 3 }).1 (by decide)).1,
   ((c3_reconnect_backoff { sampleState with
      reconnect_attempts := 10 }).2.1 (by decide)).2,
   (c3_reconnect_backoff sampleState).2.2.2 7 (by decide) (by decide)⟩

/-- C4: In every send-worker cycle with the client connected and the
queue non-empty, the dequeued messages are exactly the first
`batch_size` queued envelopes in FIFO order (so never more than
`batch_size`); exactly one dequeued envelope goes out standalone, two or
more go out wrapped, in order, in a single `batch` envelope carrying the
fresh sequence id `sequence_id + 1`; the remaining queue is everything
beyond `batch_size`. -/
theorem c4_worker_batching (gz : String → List Nat) (ok : Bool)
    (s : ClientState) (now : String) (hc : s.is_connected = true)
    (hq : s.message_queue ≠ []) :
    (∀ m, s.message_queue.take s.batch_size = [m] →
       (sendWorkerCycle gz ok s now).1 = SendAction.standalone m) ∧
    (∀ m1 m2 ms, s.message_queue.take s.batch_size = m1 :: m2 :: ms →
       (sendWorkerCycle gz ok s now).1 =
         SendAction.batched (m1 :: m2 :: ms)
           { message_type := "batch", timestamp := now,
             data := Json.obj (JObj.cons "messages"
               (Json.arr (JArr.ofList ((m1 :: m2 :: ms).map msgToJson)))
               JObj.nil),
             system_id := s.system_id,
             sequence_id := s.sequence_id + 1 }) ∧
    (sendWorkerCycle gz ok s now).2.message_queue =
      s.message_queue.drop s.batch_size ∧
    (s.message_queue.take s.batch_size).length ≤ s.batch_size := by
  refine ⟨fun m hm => ?_, fun m1 m2 ms hm => ?_,
    sendWorkerCycle_queue gz ok s now hc hq,
    List.length_take_le s.batch_size s.message_queue⟩
  · rw [sendWorkerCycle, if_pos ⟨hc, by simp [hq]⟩, dequeueBatch_eq, hm]
  · rw [sendWorkerCycle, if_pos ⟨hc, by simp [hq]⟩, dequeueBatch_eq, hm]
    rfl

/-- The C4 hypotheses on a concrete scenario: 25 queued envelopes with
`batch_size = 10` leave exactly the queue beyond the first 10, and the
first 10 (no more) are dequeued. -/
theorem c4_witness :
    (sendWorkerCycle gzNull true (queuedState 25)
        "2025-01-01T00:00:00").2.message_queue =
      (queuedState 25).message_queue.drop (queuedState 25).batch_size ∧
    ((queuedState 25).message_queue.take
        (queuedState 25).batch_size).length ≤ (queuedState 25).batch_size :=
  ⟨(c4_worker_batching gzNull true (queuedState 25) "2025-01-01T00:00:00"
      rfl (by intro h; have := congrArg List.length h
              simp [queuedState] at this)).2.2.1,
   (c4_worker_batching gzNull true (queuedState 25) "2025-01-01T00:00:00"
      rfl (by intro h; have := congrArg List.length h
              simp [queuedState] at this)).2.2.2⟩

/-- The C5 hypotheses discharged on the concrete invertible channel
`gz3` and an envelope with nested objects and unicode payload. -/
theorem c5_witness :
    decodeEnvelope gunz3 (encodeEnvelope gz3 true witnessMsg) =
      some witnessMsg :=
  decodeEnvelope_encodeEnvelope gz3 gunz3 gunz3_gz3 gz3_bytes_lt witnessMsg

/-- C6: When the transport raises on a send attempt while connected with
a socket handle, `_send_raw_message` increments `messages_failed` by
exactly one, clears `is_connected`, returns `False`, leaves
`messages_sent`/`bytes_sent` untouched and does not requeue anything (the
queue is unchanged); likewise a failed `_send_batch` leaves the dequeued
envelopes off the queue. -/
theorem c6_send_failure_effects (gz : String → List Nat) (s : ClientState)
    (m : DashboardMessage) (msgs : List DashboardMessage) (now : String)
    (hc : s.is_connected = true) (hw : s.websocket = true) :
    (sendRawMessage gz false s m).1 = false ∧
    (sendRawMessage gz false s m).2.stats.messages_failed =
      s.stats.messages_failed + 1 ∧
    (sendRawMessage gz false s m).2.is_connected = false ∧
    (sendRawMessage gz false s m).2.message_queue = s.message_queue ∧
    (sendRawMessage gz false s m).2.stats.messages_sent =
      s.stats.messages_sent ∧
    (sendRawMessage gz false s m).2.stats.bytes_sent =
      s.stats.bytes_sent ∧
    (sendBatch gz false s msgs now).2.message_queue = s.message_queue ∧
    (sendBatch gz false s msgs now).2.stats.messages_failed =
      s.stats.messages_failed + 1 := by
  have hg : ¬ (¬ (s.is_connected : Prop) ∨ ¬ (s.websocket : Prop)) := by
    simp [hc, hw]
  have hg2 : ¬ (¬ ((getNextSequenceId s).2.is_connected : Prop) ∨
      ¬ ((getNextSequenceId s).2.websocket : Prop)) := hg
  rw [sendRawMessage, if_neg hg, sendBatch, sendRawMessage, if_neg hg2]
  exact ⟨rfl, rfl, rfl, rfl, rfl, rfl, rfl, rfl⟩

/-- The C6 hypotheses discharged on the connected sample state. -/
theorem c6_witness :
    (sendRawMessage gzNull false sampleState (sampleMsg 0)).1 = false ∧
    (sendRawMessage gzNull false sampleState
      (sampleMsg 0)).2.stats.messages_failed = 1 ∧
    (sendRawMessage gzNull false sampleState
      (sampleMsg 0)).2.is_connected = false :=
  ⟨(c6_send_failure_effects gzNull sampleState (sampleMsg 0) []
      "2025-01-01T00:00:00" rfl rfl).1,
   (c6_send_failure_effects gzNull sampleState (sampleMsg 0) []
      "2025-01-01T00:00:00" rfl rfl).2.1,
   (c6_send_failure_effects gzNull sampleState (sampleMsg 0) []
      "2025-01-01T00:00:00" rfl rfl).2.2.1⟩

/-- C7 as frozen is false: on the sample state (all task handles set, a
socket held), the action trace of `stop` awaits no task and never
touches the connection-manager task, which is a local variable of
`start` the object never stores. -/
theorem c7_counterexample :
    sampleState.send_task = true ∧ sampleState.heartbeat_task = true ∧
    sampleState.websocket = true ∧
    StopAction.awaitSendTask ∉ (stop sampleState).2 ∧
    StopAction.awaitHeartbeatTask ∉ (stop sampleState).2 ∧
    StopAction.awaitConnectionTask ∉ (stop sampleState).2 ∧
    StopAction.cancelConnectionTask ∉ (stop sampleState).2 := by
  decide

/-- C7 (amended): `stop` clears `is_running`, cancels the send and
heartbeat tasks when their handles are set and closes the socket when one
is held (clearing `is_connected`), but it never cancels the
connection-manager task and awaits no task at all; a second call leaves
the state unchanged. -/
theorem c7_stop_behavior (s : ClientState) :
    (stop s).1.is_running = false ∧
    (s.websocket = true →
       (stop s).1.websocket = false ∧ (stop s).1.is_connected = false ∧
       StopAction.closeSocket ∈ (stop s).2) ∧
    (s.send_task = true → StopAction.cancelSendTask ∈ (stop s).2) ∧
    (s.heartbeat_task = true →
       StopAction.cancelHeartbeatTask ∈ (stop s).2) ∧
    StopAction.cancelConnectionTask ∉ (stop s).2 ∧
    StopAction.awaitSendTask ∉ (stop s).2 ∧
    StopAction.awaitHeartbeatTask ∉ (stop s).2 ∧
    StopAction.awaitConnectionTask ∉ (stop s).2 ∧
    (stop (stop s).1).1 = (stop s).1 := by
  cases hw : s.websocket <;> cases hs : s.send_task <;>
    cases hh : s.heartbeat_task <;>
    simp [stop, hw, hs, hh]

/-- The C7 guards discharged on the sample state: the send task is
cancelled and the socket closed. -/
theorem c7_witness :
    StopAction.cancelSendTask ∈ (stop sampleState).2 ∧
    StopAction.closeSocket ∈ (stop sampleState).2 :=
  ⟨(c7_stop_behavior sampleState).2.2.1 rfl,
   ((c7_stop_behavior sampleState).2.1 rfl).2.2⟩

/-- C8: `_handle_config_update` keeps the configuration's key list; a key
absent from the live configuration stays absent (unknown update keys are
ignored); a key the update never names keeps its previous value; and an
update naming a present key sets it to the incoming value. -/
theorem c8_config_update_merges_known_keys (c upd : List (String × Json))
    (k : String) (v : Json) :
    (handleConfigUpdate c upd).map Prod.fst = c.map Prod.fst ∧
    (cfgLookup c k = none →
       cfgLookup (handleConfigUpdate c upd) k = none) ∧
    ((∀ w, (k, w) ∉ upd) →
       cfgLookup (handleConfigUpdate c upd) k = cfgLookup c k) ∧
    ((cfgLookup c k).isSome = true →
       cfgLookup (handleConfigUpdate c (upd ++ [(k, v)])) k = some v) := by
  refine ⟨handleConfigUpdate_fst upd c, fun h => ?_,
    handleConfigUpdate_frame upd c k, fun h => ?_⟩
  · have := handleConfigUpdate_isSome upd c k
    rw [h] at this
    cases hfin : cfgLookup (handleConfigUpdate c upd) k with
    | none => rfl
    | some w => rw [hfin] at this; exact absurd this (by simp)
  · show cfgLookup ((upd ++ [(k, v)]).foldl cfgStep c) k = some v
    rw [List.foldl_append]
    show cfgLookup (cfgStep (handleConfigUpdate c upd) (k, v)) k = some v
    rw [cfgStep_lookup]
    rw [if_pos ⟨rfl, by rw [handleConfigUpdate_isSome upd c k]; exact h⟩]

/-- The C8 hypotheses discharged on the sample configuration: an update
naming the present key `batch_size` (after an ignored unknown key) sets
it, and the unknown key stays absent. -/
theorem c8_witness :
    cfgLookup (handleConfigUpdate sampleState.config
      ([("unknown_key", Json.num 1)] ++ [("batch_size", Json.num 20)]))
      "batch_size" = some (Json.num 20) ∧
    cfgLookup (handleConfigUpdate sampleState.config
      [("unknown_key", Json.num 1)]) "unknown_key" = none :=
  ⟨(c8_config_update_merges_known_keys sampleState.config
      [("unknown_key", Json.num 1)] "batch_size" (Json.num 20)).2.2.2 rfl,
   (c8_config_update_merges_known_keys sampleState.config
      [("unknown_key", Json.num 1)] "unknown_key" (Json.num 0)).2.1 rfl⟩

/-- C9: The heartbeat period is the constant 30 seconds (independent of
`send_interval`) and the heartbeat is written directly, never queued; but
because no code path ever stores the `start_time` statistics key, from
any start state without it the payload's `uptime` field is
`time.time() - time.time() = 0` forever — it never carries the actual
process uptime, only the (correct) queue depth. -/
theorem c9_heartbeat_uptime_always_zero (s0 : ClientState)
    (h0 : s0.stats.start_time = none) (ops : List ClientOp)
    (gz : String → List Nat) (ok : Bool) (nowIso : String) (nowT : Int) :
    heartbeatSleep (applyOps s0 ops) = 30 ∧
    (sendHeartbeat gz ok (applyOps s0 ops) nowIso nowT).2.message_queue =
      (applyOps s0 ops).message_queue ∧
    heartbeatData (applyOps s0 ops) nowIso nowT =
      Json.obj (JObj.cons "timestamp" (Json.str nowIso)
        (JObj.cons "uptime" (Json.num 0)
        (JObj.cons "queue_size"
          (Json.num (applyOps s0 ops).message_queue.length) JObj.nil))) := by
  refine ⟨rfl,
    (sendRawMessage_preserves gz ok
      (getNextSequenceId (applyOps s0 ops)).2 _).1, ?_⟩
  rw [heartbeatData, applyOps_start_time ops s0, h0]
  simp

/-- The C9 hypothesis discharged on a run from the fresh sample state
through a successful connect: at wall-clock time 100 the heartbeat still
reports uptime 0. -/
theorem c9_witness :
    heartbeatData (applyOps sampleState [ClientOp.connectOk])
      "2025-01-01T00:01:40" 100 =
      Json.obj (JObj.cons "timestamp" (Json.str "2025-01-01T00:01:40")
        (JObj.cons "uptime" (Json.num 0)
        (JObj.cons "queue_size" (Json.num 0) JObj.nil))) :=
  (c9_heartbeat_uptime_always_zero sampleState rfl [ClientOp.connectOk]
    gzNull true "2025-01-01T00:01:40" 100).2.2

/-- C10: Whenever `_send_raw_message` runs with `is_connected` false or
no socket handle, it returns `False` immediately with the state — every
statistics counter included — unchanged; a pong produced while
disconnected is silently dropped the same way, and a heartbeat produced
while disconnected reports `False` and leaves the statistics unchanged
(it still consumes a sequence id before the guard). -/
theorem c10_disconnected_drop (gz : String → List Nat) (ok : Bool)
    (s : ClientState) (m : DashboardMessage) (now : String) (nowT : Int)
    (h : s.is_connected = false ∨ s.websocket = false) :
    sendRawMessage gz ok s m = (false, s) ∧
    sendPong gz ok s now = (false, s) ∧
    (sendHeartbeat gz ok s now nowT).1 = false ∧
    (sendHeartbeat gz ok s now nowT).2.stats = s.stats := by
  have hg : ¬ (s.is_connected : Prop) ∨ ¬ (s.websocket : Prop) := by
    rcases h with h | h
    · exact Or.inl (by simp [h])
    · exact Or.inr (by simp [h])
  have hg2 : ¬ ((getNextSequenceId s).2.is_connected : Prop) ∨
      ¬ ((getNextSequenceId s).2.websocket : Prop) := hg
  refine ⟨?_, ?_, ?_, ?_⟩
  · rw [sendRawMessage, if_pos hg]
  · rw [sendPong, sendRawMessage, if_pos hg]
  · rw [sendHeartbeat, sendRawMessage, if_pos hg2]
  · rw [sendHeartbeat, sendRawMessage, if_pos hg2]
    rfl

/-- The C10 hypothesis discharged on the disconnected sample state. -/
theorem c10_witness :
    sendRawMessage gzNull true { sampleState with is_connected := false }
      (sampleMsg 0) = (false, { sampleState with is_connected := false }) ∧
    sendPong gzNull true { sampleState with is_connected := false }
      "2025-01-01T00:00:00" =
      (false, { sampleState with is_connected := false }) :=
  ⟨(c10_disconnected_drop gzNull true
      { sampleState with is_connected := false } (sampleMsg 0)
      "2025-01-01T00:00:00" 0 (Or.inl rfl)).1,
   (c10_disconnected_drop gzNull true
      { sampleState with is_connected := false } (sampleMsg 0)
      "2025-01-01T00:00:00" 0 (Or.inl rfl)).2.1⟩

end NexusDash
